import Mathlib

/-!
Verification development for the HDF5-JSON bridge (`h5json`).

We give a shallow embedding of the parts of `src/h5json/hdf5dtype.py` and
`src/h5json/hdf5db.py` that the specification talks about:

* the type-descriptor codec (`getTypeItem`, `createDataType`,
  `createBaseDataType`, `getItemSize`),
* the ACL precedence chain (`getAcl`),
* the row-filter query compiler (`_getEvalStr`),
* the object-directory state machine (`linkObject`, `unlinkObjectItem`,
  `deleteObjectByUuid`, timestamp bookkeeping and item lookup),
* the region-reference hyperslab boundary conversion
  (`createRegionReference` / `getRegionReference`),
* the array-size accumulator of `setDatasetValuesByUuid`.

Machine integers do not overflow in these code paths (Python integers are
unbounded), so numbers are modelled as `Nat`/`Int`.  Fallible code returns
`Except`数.
-/

namespace H5Json

/-- Error kinds raised through `IOError(errno.X, ...)` in `hdf5db.py`,
plus the `TypeError`/`KeyError` style errors of `hdf5dtype.py` which we
carry as `Except String`. -/
inductive IOErr where
  | enoent   -- errno.ENOENT
  | enxio    -- errno.ENXIO
  | eperm    -- errno.EPERM
  | eio      -- errno.EIO
  | einval   -- errno.EINVAL
deriving DecidableEq, Repr

deriving instance DecidableEq for Except

/-! ## Type-descriptor bridge (`hdf5dtype.py`)

`NpDtype` models the numpy/h5py dtype objects the module manipulates:
plain integer/float dtypes, fixed strings (`'S<n>'`), void (`'V<n>'`),
the h5py special dtypes (variable-length bytes/str/data, object and
region references, enums), compound dtypes built from a field list, and
sub-array dtypes `np.dtype((base, dims))`.

`TypeItem` models the JSON type-descriptor dictionaries: each
constructor carries exactly the keys that `getTypeItem` produces and
`createDataType`/`createBaseDataType` consume for that `class`. -/

inductive ByteOrder where
  | le
  | be
deriving DecidableEq, Repr

mutual
inductive NpDtype where
  /-- an integer dtype such as `np.dtype('<i4')`; `size` in bytes -/
  | int (signed : Bool) (size : Nat) (bo : ByteOrder)
  /-- a float dtype `np.dtype('<f4')` / `('<f8')` -/
  | float (size : Nat) (bo : ByteOrder)
  /-- `np.dtype('bool')` -/
  | boolean
  /-- fixed ASCII string `np.dtype('S<n>')` -/
  | fixedStr (n : Nat)
  /-- void dtype `np.dtype('V<n>')` -/
  | voidN (n : Nat)
  /-- `special_dtype(vlen=bytes)` -/
  | vlenBytes
  /-- `special_dtype(vlen=str)` -/
  | vlenStr
  /-- `special_dtype(vlen=np.dtype(base))` -/
  | vlenData (base : NpDtype)
  /-- `special_dtype(ref=Reference)` -/
  | refObj
  /-- `special_dtype(ref=RegionReference)` -/
  | refRegion
  /-- `special_dtype(enum=(base, mapping))` -/
  | enum (base : NpDtype) (mapping : List (String × Int))
  /-- compound dtype `np.dtype([(name, dt), ...])` -/
  | compound (fields : NpFields)
  /-- sub-array dtype `np.dtype((base, dims))`, `dims ≠ []` -/
  | array (base : NpDtype) (dims : List Nat)

inductive NpFields where
  | nil
  | cons (name : String) (dt : NpDtype) (rest : NpFields)
end

mutual
inductive TypeItem where
  /-- `{'class': 'H5T_INTEGER', 'base': name}` -/
  | integer (base : String)
  /-- `{'class': 'H5T_FLOAT', 'base': name}` -/
  | float (base : String)
  /-- `{'class': 'H5T_STRING', 'length': n, 'charSet': cs, 'strPad': pad}` -/
  | strFixed (length : Nat) (charSet : String) (strPad : String)
  /-- `{'class': 'H5T_STRING', 'length': 'H5T_VARIABLE', 'charSet': cs, 'strPad': pad}` -/
  | strVar (charSet : String) (strPad : String)
  /-- `{'class': 'H5T_VLEN', 'base': b}` (decode also adds `'size': 'H5T_VARIABLE'`) -/
  | vlen (base : TypeItem)
  /-- `{'class': 'H5T_OPAQUE', 'size': n, 'tag': t}` -/
  | opq (size : Nat) (tag : String)
  /-- `{'class': 'H5T_ARRAY', 'dims': dims, 'base': b}` -/
  | array (dims : List Nat) (base : TypeItem)
  /-- `{'class': 'H5T_REFERENCE', 'base': name}` -/
  | reference (base : String)
  /-- `{'class': 'H5T_ENUM', 'base': b, 'mapping': m}` -/
  | enum (base : TypeItem) (mapping : List (String × Int))
  /-- `{'class': 'H5T_COMPOUND', 'fields': [{'name': n, 'type': t}, ...]}` -/
  | compound (fields : TypeFields)

inductive TypeFields where
  | nil
  | cons (name : String) (type : TypeItem) (rest : TypeFields)
end

namespace NpFields

def length : NpFields → Nat
  | .nil => 0
  | .cons _ _ rest => 1 + rest.length

end NpFields

namespace TypeFields

def length : TypeFields → Nat
  | .nil => 0
  | .cons _ _ rest => 1 + rest.length

def names : TypeFields → List String
  | .nil => []
  | .cons n _ rest => n :: rest.names

end TypeFields

mutual

def NpDtype.beq : NpDtype → NpDtype → Bool
  | .int s₁ n₁ b₁, .int s₂ n₂ b₂ => s₁ == s₂ && n₁ == n₂ && b₁ == b₂
  | .float n₁ b₁, .float n₂ b₂ => n₁ == n₂ && b₁ == b₂
  | .boolean, .boolean => true
  | .fixedStr n₁, .fixedStr n₂ => n₁ == n₂
  | .voidN n₁, .voidN n₂ => n₁ == n₂
  | .vlenBytes, .vlenBytes => true
  | .vlenStr, .vlenStr => true
  | .vlenData b₁, .vlenData b₂ => NpDtype.beq b₁ b₂
  | .refObj, .refObj => true
  | .refRegion, .refRegion => true
  | .enum b₁ m₁, .enum b₂ m₂ => NpDtype.beq b₁ b₂ && m₁ == m₂
  | .compound f₁, .compound f₂ => NpFields.beq f₁ f₂
  | .array b₁ d₁, .array b₂ d₂ => NpDtype.beq b₁ b₂ && d₁ == d₂
  | _, _ => false

def NpFields.beq : NpFields → NpFields → Bool
  | .nil, .nil => true
  | .cons n₁ t₁ r₁, .cons n₂ t₂ r₂ => n₁ == n₂ && NpDtype.beq t₁ t₂ && NpFields.beq r₁ r₂
  | _, _ => false

end

mutual

theorem npDtype_beq_iff : ∀ a b : NpDtype, NpDtype.beq a b = true ↔ a = b
  | .int s₁ n₁ b₁, b => by
    cases b <;> simp [NpDtype.beq, and_assoc]
  | .float n₁ b₁, b => by
    cases b <;> simp [NpDtype.beq, and_assoc]
  | .boolean, b => by cases b <;> simp [NpDtype.beq, and_assoc]
  | .fixedStr n₁, b => by cases b <;> simp [NpDtype.beq, and_assoc]
  | .voidN n₁, b => by cases b <;> simp [NpDtype.beq, and_assoc]
  | .vlenBytes, b => by cases b <;> simp [NpDtype.beq, and_assoc]
  | .vlenStr, b => by cases b <;> simp [NpDtype.beq, and_assoc]
  | .vlenData b₁, b => by
    cases b <;> simp [NpDtype.beq, npDtype_beq_iff b₁]
  | .refObj, b => by cases b <;> simp [NpDtype.beq, and_assoc]
  | .refRegion, b => by cases b <;> simp [NpDtype.beq, and_assoc]
  | .enum b₁ m₁, b => by
    cases b <;> simp [NpDtype.beq, npDtype_beq_iff b₁]
  | .compound f₁, b => by
    cases b <;> simp [NpDtype.beq, npFields_beq_iff f₁]
  | .array b₁ d₁, b => by
    cases b <;> simp [NpDtype.beq, npDtype_beq_iff b₁]

theorem npFields_beq_iff : ∀ a b : NpFields, NpFields.beq a b = true ↔ a = b
  | .nil, b => by cases b <;> simp [NpFields.beq]
  | .cons n₁ t₁ r₁, b => by
    cases b <;> simp [NpFields.beq, npDtype_beq_iff t₁, npFields_beq_iff r₁, and_assoc]

end

instance : DecidableEq NpDtype := fun a b =>
  decidable_of_iff _ (npDtype_beq_iff a b)

instance : DecidableEq NpFields := fun a b =>
  decidable_of_iff _ (npFields_beq_iff a b)

mutual

def TypeItem.beq : TypeItem → TypeItem → Bool
  | .integer b₁, .integer b₂ => b₁ == b₂
  | .float b₁, .float b₂ => b₁ == b₂
  | .strFixed n₁ c₁ p₁, .strFixed n₂ c₂ p₂ => n₁ == n₂ && c₁ == c₂ && p₁ == p₂
  | .strVar c₁ p₁, .strVar c₂ p₂ => c₁ == c₂ && p₁ == p₂
  | .vlen b₁, .vlen b₂ => TypeItem.beq b₁ b₂
  | .opq n₁ t₁, .opq n₂ t₂ => n₁ == n₂ && t₁ == t₂
  | .array d₁ b₁, .array d₂ b₂ => d₁ == d₂ && TypeItem.beq b₁ b₂
  | .reference b₁, .reference b₂ => b₁ == b₂
  | .enum b₁ m₁, .enum b₂ m₂ => TypeItem.beq b₁ b₂ && m₁ == m₂
  | .compound f₁, .compound f₂ => TypeFields.beq f₁ f₂
  | _, _ => false

def TypeFields.beq : TypeFields → TypeFields → Bool
  | .nil, .nil => true
  | .cons n₁ t₁ r₁, .cons n₂ t₂ r₂ => n₁ == n₂ && TypeItem.beq t₁ t₂ && TypeFields.beq r₁ r₂
  | _, _ => false

end

mutual

theorem typeItem_beq_iff : ∀ a b : TypeItem, TypeItem.beq a b = true ↔ a = b
  | .integer b₁, b => by cases b <;> simp [TypeItem.beq, and_assoc]
  | .float b₁, b => by cases b <;> simp [TypeItem.beq, and_assoc]
  | .strFixed n₁ c₁ p₁, b => by cases b <;> simp [TypeItem.beq, and_assoc]
  | .strVar c₁ p₁, b => by cases b <;> simp [TypeItem.beq, and_assoc]
  | .vlen b₁, b => by cases b <;> simp [TypeItem.beq, typeItem_beq_iff b₁]
  | .opq n₁ t₁, b => by cases b <;> simp [TypeItem.beq, and_assoc]
  | .array d₁ b₁, b => by cases b <;> simp [TypeItem.beq, typeItem_beq_iff b₁]
  | .reference b₁, b => by cases b <;> simp [TypeItem.beq, and_assoc]
  | .enum b₁ m₁, b => by cases b <;> simp [TypeItem.beq, typeItem_beq_iff b₁]
  | .compound f₁, b => by cases b <;> simp [TypeItem.beq, typeFields_beq_iff f₁]

theorem typeFields_beq_iff : ∀ a b : TypeFields, TypeFields.beq a b = true ↔ a = b
  | .nil, b => by cases b <;> simp [TypeFields.beq]
  | .cons n₁ t₁ r₁, b => by
    cases b <;> simp [TypeFields.beq, typeItem_beq_iff t₁, typeFields_beq_iff r₁, and_assoc]

end

instance : DecidableEq TypeItem := fun a b =>
  decidable_of_iff _ (typeItem_beq_iff a b)

instance : DecidableEq TypeFields := fun a b =>
  decidable_of_iff _ (typeFields_beq_iff a b)

/-- `"LE"` / `"BE"` suffix appended by `getTypeItem` ("assume LE unless the
numpy byteorder is `'>'`"). -/
def boSuffix : ByteOrder → String
  | .le => "LE"
  | .be => "BE"

/-- Construction of an integer numpy dtype from an explicit byte order.
numpy normalizes one-byte integer dtypes to byte order `'|'` (there is no
endianness to record), which `getTypeItem` then reports as little-endian;
we normalize at construction accordingly. -/
def npInt (signed : Bool) (size : Nat) (bo : ByteOrder) : NpDtype :=
  .int signed size (if size = 1 then .le else bo)

mutual

/-- `dtype.itemsize`. Object dtypes (vlen/reference) hold a pointer. -/
def NpDtype.itemsize : NpDtype → Nat
  | .int _ n _ => n
  | .float n _ => n
  | .boolean => 1
  | .fixedStr n => n
  | .voidN n => n
  | .vlenBytes | .vlenStr | .vlenData _ | .refObj | .refRegion => 8
  | .enum b _ => b.itemsize
  | .compound fs => NpFields.itemsizeSum fs
  | .array b dims => dims.foldl (fun a d => a * d) b.itemsize

def NpFields.itemsizeSum : NpFields → Nat
  | .nil => 0
  | .cons _ dt rest => dt.itemsize + NpFields.itemsizeSum rest

end

/-- `predefined_int_types` of `getTypeItem`, keyed by the numpy dtype's
signedness and byte width (`dt.name`, e.g. `'int16'` ↦ `'H5T_STD_I16'`). -/
def intName? (signed : Bool) (size : Nat) : Option String :=
  match signed, size with
  | true, 1 => some "H5T_STD_I8"
  | false, 1 => some "H5T_STD_U8"
  | true, 2 => some "H5T_STD_I16"
  | false, 2 => some "H5T_STD_U16"
  | true, 4 => some "H5T_STD_I32"
  | false, 4 => some "H5T_STD_U32"
  | true, 8 => some "H5T_STD_I64"
  | false, 8 => some "H5T_STD_U64"
  | _, _ => none

/-- `predefined_float_types` of `getTypeItem` (`'float32'` ↦ `'H5T_IEEE_F32'`). -/
def floatName? (size : Nat) : Option String :=
  match size with
  | 4 => some "H5T_IEEE_F32"
  | 8 => some "H5T_IEEE_F64"
  | _ => none

/-- `predefined_int_types` of `getNumpyTypename` (`'H5T_STD_I8'` ↦ `'i1'`, …),
returning the numpy dtype's signedness and byte width. -/
def intKey? : String → Option (Bool × Nat)
  | "H5T_STD_I8" => some (true, 1)
  | "H5T_STD_U8" => some (false, 1)
  | "H5T_STD_I16" => some (true, 2)
  | "H5T_STD_U16" => some (false, 2)
  | "H5T_STD_I32" => some (true, 4)
  | "H5T_STD_U32" => some (false, 4)
  | "H5T_STD_I64" => some (true, 8)
  | "H5T_STD_U64" => some (false, 8)
  | _ => none

/-- `predefined_float_types` of `getNumpyTypename`. -/
def floatKey? : String → Option Nat
  | "H5T_IEEE_F32" => some 4
  | "H5T_IEEE_F64" => some 8
  | _ => none

/-! String helpers over the character list (the built-in `String.endsWith`
etc. are compiled externally and do not reduce in the kernel; these
list-based versions mirror Python's `startswith`/`endswith`/slicing and
`int()` on digit strings). -/

/-- `chPrefixB pre l`: is `pre` a leading segment of `l`? -/
def chPrefixB : List Char → List Char → Bool
  | [], _ => true
  | _ :: _, [] => false
  | a :: as, b :: bs => a == b && chPrefixB as bs

def strStarts (s pre : String) : Bool := chPrefixB pre.data s.data

def strEnds (s suf : String) : Bool := chPrefixB suf.data.reverse s.data.reverse

def strDropN (s : String) (n : Nat) : String := String.mk (s.data.drop n)

def strDropRightN (s : String) (n : Nat) : String :=
  String.mk (s.data.take (s.data.length - n))

/-- Python `int(s)` restricted to plain digit strings (the only shape the
type-name bit counts take). -/
def digitsToNat : String → Option Nat
  | s =>
    if s.data ≠ [] ∧ s.data.all (fun c => 48 ≤ c.toNat ∧ c.toNat ≤ 57) then
      some (s.data.foldl (fun a c => a * 10 + (c.toNat - 48)) 0)
    else none

/-- `getNumpyTypename(hdf5TypeName, typeClass)` composed with `np.dtype`:
parse the optional `LE`/`BE` suffix (default endian `'<'`) and look the key
up in the predefined tables, filtered by `typeClass`. -/
def getNumpyTypename (name : String) (typeClass : Option String) : Except String NpDtype :=
  if name.length < 3 then .error "Type Error: invalid typename"
  else
    let ke : String × ByteOrder :=
      if strEnds name "LE" then (strDropRightN name 2, .le)
      else if strEnds name "BE" then (strDropRightN name 2, .be)
      else (name, .le)
    match intKey? ke.1 with
    | some (s, sz) =>
      if typeClass = none ∨ typeClass = some "H5T_INTEGER" then .ok (npInt s sz ke.2)
      else match floatKey? ke.1 with
           | some fsz =>
             if typeClass = none ∨ typeClass = some "H5T_FLOAT" then .ok (.float fsz ke.2)
             else .error "Type Error: invalid type"
           | none => .error "Type Error: invalid type"
    | none =>
      match floatKey? ke.1 with
      | some fsz =>
        if typeClass = none ∨ typeClass = some "H5T_FLOAT" then .ok (.float fsz ke.2)
        else .error "Type Error: invalid type"
      | none => .error "Type Error: invalid type"

mutual

/-- `getTypeItem(dt)` of `hdf5dtype.py`: decode a numpy/h5py dtype into a
JSON type item, following the source's branch order (`len(dt) > 1` for
compound; `dt.shape` for sub-array; kind `'O'` for vlen/reference; kind
`'V'` for void; base kind `'S'` for fixed strings; kind `'b'`, `'f'`,
`'i'`/`'u'` for boolean, float and integer/enum). -/
def getTypeItem : NpDtype → Except String TypeItem
  | .compound fs =>
      -- numpy reports `len(dt) > 1` only for dtypes with at least 2 fields;
      -- a compound dtype with 0 or 1 fields has empty shape and kind 'V',
      -- so it falls through to the H5T_OPAQUE branch below.
      if fs.length > 1 then do
        let fields ← getTypeItemFields fs
        .ok (.compound fields)
      else .ok (.opq (NpFields.itemsizeSum fs) "")
  | .array b dims =>
      if dims = [] then getTypeItem b  -- np.dtype((b, ())) is b itself
      else if b = NpDtype.array b dims then
        .error "Expected base type to be different than parent"
      else do
        let baseItem ← getTypeItem b
        .ok (.array dims baseItem)
  | .vlenBytes => .ok (.strVar "H5T_CSET_ASCII" "H5T_STR_NULLTERM")
  | .vlenStr => .ok (.strVar "H5T_CSET_UTF8" "H5T_STR_NULLTERM")
  | .vlenData b => do
      let bi ← getTypeItem b
      .ok (.vlen bi)
  | .refObj => .ok (.reference "H5T_STD_REF_OBJ")
  | .refRegion => .ok (.reference "H5T_STD_REF_DSETREG")
  | .voidN n => .ok (.opq n "")
  | .fixedStr n => .ok (.strFixed n "H5T_CSET_ASCII" "H5T_STR_NULLPAD")
  | .boolean =>
      -- np.dtype('bool') has byteorder '|', reported as LE
      .ok (.enum (.integer "H5T_STD_I8LE") [("FALSE", 0), ("TRUE", 1)])
  | .float n bo =>
      match floatName? n with
      | some base => .ok (.float (base ++ boSuffix bo))
      | none => .error "Unexpected floating point type"
  | .int s n bo =>
      match intName? s n with
      | some base => .ok (.integer (base ++ boSuffix bo))
      | none => .error "Unexpected integer type"
  | .enum b m =>
      -- an h5py enum dtype is its integer base dtype plus metadata; only
      -- the integer branch consults `check_dtype(enum=dt)`
      match b with
      | .int s n bo =>
        match intName? s n with
        | some base => .ok (.enum (.integer (base ++ boSuffix bo)) m)
        | none => .error "Unexpected integer type"
      | other => getTypeItem other

def getTypeItemFields : NpFields → Except String TypeFields
  | .nil => .ok .nil
  | .cons n dt rest => do
      let t ← getTypeItem dt
      let r ← getTypeItemFields rest
      .ok (.cons n t r)

end

/-- The boolean-enum collapse test of `createBaseDataType`:
`dt.kind == 'i' and dt.name == 'int8' and len(mapping) == 2 and 'TRUE' in
mapping and 'FALSE' in mapping`. -/
def boolCollapse (dt : NpDtype) (m : List (String × Int)) : Bool :=
  (match dt with | .int true 1 _ => true | _ => false)
    && m.length == 2 && m.any (·.1 == "TRUE") && m.any (·.1 == "FALSE")

/-- `createBaseDataType(typeItem)` of `hdf5dtype.py`: encode a non-compound
JSON type item into a numpy/h5py dtype.

The source's array branch calls `createDataType(arrayBaseType)`; since the
class check just above it restricts the base to the integer/float/string
classes — on which `createDataType` immediately defers to
`createBaseDataType` — the recursive call here goes to `createBaseDataType`
directly (`createDataType_eq_base` below records the equivalence). -/
def createBaseDataType : TypeItem → Except String NpDtype
  | .integer base => getNumpyTypename base (some "H5T_INTEGER")
  | .float base => getNumpyTypename base (some "H5T_FLOAT")
  | .strVar cs _pad =>
      if cs = "H5T_CSET_ASCII" then .ok .vlenBytes
      else if cs = "H5T_CSET_UTF8" then .ok .vlenStr
      else .error "unexpected charSet value"
  | .strFixed n cs _pad =>
      if cs = "H5T_CSET_ASCII" then .ok (.fixedStr n)
      else if cs = "H5T_CSET_UTF8" then .error "fixed-width unicode strings are not supported"
      else .error "unexpected charSet value"
  | .vlen base => do
      let b ← createBaseDataType base  -- note: not createDataType
      .ok (.vlenData b)
  | .opq n _tag =>
      -- `if nSize <= 0: raise` (over Nat: n = 0)
      if n = 0 then .error "size must be non-negative"
      else .ok (.voidN n)
  | .array dims base => do
      match base with
      | .integer _ | .float _ | .strFixed _ _ _ | .strVar _ _ => pure ()
      | _ => .error "Array Type base type must be integer, float, or string"
      let dtBase ← createBaseDataType base
      -- np.dtype((dtBase, dims)); an empty dims tuple collapses to dtBase
      .ok (if dims = [] then dtBase else .array dtBase dims)
  | .reference base =>
      if base = "H5T_STD_REF_OBJ" then .ok .refObj
      else if base = "H5T_STD_REF_DSETREG" then .ok .refRegion
      else .error "Invalid base type for reference type"
  | .enum base mapping =>
      match base with
      | .integer ibase => do
          if mapping.length = 0 then .error "empty enum map"
          let dt ← createBaseDataType (.integer ibase)
          .ok (if boolCollapse dt mapping then .boolean else .enum dt mapping)
      | _ => .error "Only integer base types can be used with enum type"
  | .compound _ => .error "Invalid type class"

mutual

/-- `createDataType(typeItem)` of `hdf5dtype.py`: compound items build a
record dtype from their fields; everything else goes through
`createBaseDataType`. -/
def createDataType : TypeItem → Except String NpDtype
  | .compound fs =>
      if fs.length = 0 then .error "no field elements provided"
      else do
        let nfs ← createDataTypeFields fs
        -- np.dtype raises ValueError on duplicate field names
        if (TypeFields.names fs).Nodup then .ok (.compound nfs)
        else .error "duplicate field name"
  | t => createBaseDataType t

def createDataTypeFields : TypeFields → Except String NpFields
  | .nil => .ok .nil
  | .cons name t rest => do
      -- the field name must encode as ascii
      if ¬ (name.toList.all (fun c => c.toNat < 128)) then
        .error "non-ascii field name not allowed"
      let dt ← createDataType t
      let r ← createDataTypeFields rest
      .ok (.cons name dt r)

end

/-- `getItemSize` applied to a primitive type string (`"H5T_STD_I64LE"`,
…): check the three known prefixes, strip a trailing `LE`/`BE`, parse the
bit count, divide by 8. -/
def getItemSizePrim (name : String) : Except String Nat :=
  let parseBits (pre : String) : Except String Nat :=
    let numBits := strDropN name pre.length
    let numBits := if strEnds numBits "LE" ∨ strEnds numBits "BE" then
        strDropRightN numBits 2 else numBits
    match digitsToNat numBits with
    | some n => .ok (n / 8)
    | none => .error "Invalid Type"
  if strStarts name "H5T_STD_I" then parseBits "H5T_STD_I"
  else if strStarts name "H5T_STD_U" then parseBits "H5T_STD_U"
  else if strStarts name "H5T_IEEE_F" then parseBits "H5T_IEEE_F"
  else .error "Invalid Type"

/-- An item size: a byte count, or the string `"H5T_VARIABLE"`. -/
inductive SizeRes where
  | size (n : Nat)
  | varSize
deriving DecidableEq, Repr

mutual

/-- `getItemSize(typeItem)` of `hdf5dtype.py`. -/
def getItemSize : TypeItem → Except String SizeRes
  | .integer base => do
      let n ← getItemSizePrim base
      .ok (.size n)
  | .float base => do
      let n ← getItemSizePrim base
      .ok (.size n)
  | .strFixed n _ _ => .ok (.size n)   -- item_size = typeItem["length"]
  | .strVar _ _ => .ok .varSize        -- "length" is "H5T_VARIABLE"
  | .vlen _ => .ok .varSize
  | .opq n _ => .ok (.size n)
  | .array dims base => do
      let s ← getItemSize base
      -- trailing `if 'dims' in typeItem and type(item_size) is int` loop
      .ok (match s with
           | .size n => .size (dims.foldl (fun a d => a * d) n)
           | .varSize => .varSize)
  | .enum base _ => getItemSize base
  | .reference _ => .ok .varSize
  | .compound fs =>
      if fs.length = 0 then .error "no field elements provided"
      else getItemSizeFields fs 0

def getItemSizeFields : TypeFields → Nat → Except String SizeRes
  | .nil, acc => .ok (.size acc)
  | .cons _ t rest, acc => do
      let s ← getItemSize t
      match s with
      | .varSize => .ok .varSize    -- break: don't look at the rest
      | .size n => getItemSizeFields rest (acc + n)

end

/-! ### Round-tripping type descriptors (claim C1)

`decode(encode(d)) = d` does not hold for every descriptor the codec
accepts: the encoder drops `strPad` (numpy `'S<n>'`/vlen dtypes carry no
padding), the boolean-enum collapse canonicalizes `TRUE`/`FALSE`
mappings, numpy drops the byte order of one-byte integers, and a
compound with a single field decodes as `H5T_OPAQUE`.  `canonical`
characterizes the descriptors on which the round trip is exact. -/

theorem bindOk {ε α β : Type} (a : α) (f : α → Except ε β) :
    (Except.ok a >>= f) = f a := rfl

theorem bindErr {ε α β : Type} (e : ε) (f : α → Except ε β) :
    ((Except.error e : Except ε α) >>= f) = Except.error e := rfl

theorem pureOk {ε α : Type} (a : α) : (pure a : Except ε α) = Except.ok a := rfl

def TypeItem.isCompound : TypeItem → Bool
  | .compound _ => true
  | _ => false

/-- Integer base names whose encoded dtype decodes back to the same name
(`H5T_STD_I8BE`/`H5T_STD_U8BE` are excluded: numpy normalizes one-byte
dtypes to byte order `'|'`, decoded as LE). -/
def canonIntName (s : String) : Bool :=
  s == "H5T_STD_I8LE" || s == "H5T_STD_U8LE" ||
  s == "H5T_STD_I16LE" || s == "H5T_STD_I16BE" ||
  s == "H5T_STD_U16LE" || s == "H5T_STD_U16BE" ||
  s == "H5T_STD_I32LE" || s == "H5T_STD_I32BE" ||
  s == "H5T_STD_U32LE" || s == "H5T_STD_U32BE" ||
  s == "H5T_STD_I64LE" || s == "H5T_STD_I64BE" ||
  s == "H5T_STD_U64LE" || s == "H5T_STD_U64BE"

def canonFloatName (s : String) : Bool :=
  s == "H5T_IEEE_F32LE" || s == "H5T_IEEE_F32BE" ||
  s == "H5T_IEEE_F64LE" || s == "H5T_IEEE_F64BE"

/-- The boolean-shaped mapping test of the encoder
(`len(mapping) == 2 and 'TRUE' in mapping and 'FALSE' in mapping`). -/
def boolMapping (m : List (String × Int)) : Bool :=
  m.length == 2 && m.any (·.1 == "TRUE") && m.any (·.1 == "FALSE")

mutual

/-- Descriptors on which `getTypeItem ∘ createDataType` is the identity:
those in the image of the decoder whose encoding is injective. -/
def canonical : TypeItem → Bool
  | .integer base => canonIntName base
  | .float base => canonFloatName base
  | .strFixed _ cs pad => cs == "H5T_CSET_ASCII" && pad == "H5T_STR_NULLPAD"
  | .strVar cs pad =>
      (cs == "H5T_CSET_ASCII" || cs == "H5T_CSET_UTF8") && pad == "H5T_STR_NULLTERM"
  | .vlen base => !base.isCompound && canonical base
  | .opq n tag => !(n == 0) && tag == ""
  | .array dims base =>
      (!dims.isEmpty &&
        match base with
        | .integer _ | .float _ | .strFixed _ _ _ | .strVar _ _ => true
        | _ => false) &&
      canonical base
  | .reference b => b == "H5T_STD_REF_OBJ" || b == "H5T_STD_REF_DSETREG"
  | .enum base m =>
      match base with
      | .integer ib =>
          canonIntName ib && !m.isEmpty &&
          (if ib == "H5T_STD_I8LE" && boolMapping m then
             m == [("FALSE", 0), ("TRUE", 1)] else true)
      | _ => false
  | .compound fs =>
      decide (2 ≤ fs.length) && canonicalFields fs && decide fs.names.Nodup

def canonicalFields : TypeFields → Bool
  | .nil => true
  | .cons name t rest =>
      name.toList.all (fun c => c.toNat < 128) && canonical t && canonicalFields rest

end

/-- `getTypeItem(createDataType(d))` — decode after encode. -/
def roundTrip (d : TypeItem) : Except String TypeItem :=
  (createDataType d).bind getTypeItem

theorem createDataType_eq_base (d : TypeItem) (h : d.isCompound = false) :
    createDataType d = createBaseDataType d := by
  cases d <;> first
    | rfl
    | simp [TypeItem.isCompound] at h

theorem npdtype_ne_array (b : NpDtype) (dims : List Nat) :
    ¬ (b = NpDtype.array b dims) := by
  intro h
  have hs := congrArg sizeOf h
  simp only [NpDtype.array.sizeOf_spec] at hs
  omega

theorem canonIntName_cases (s : String) (h : canonIntName s = true) :
    s = "H5T_STD_I8LE" ∨ s = "H5T_STD_U8LE" ∨ s = "H5T_STD_I16LE" ∨ s = "H5T_STD_I16BE" ∨
    s = "H5T_STD_U16LE" ∨ s = "H5T_STD_U16BE" ∨ s = "H5T_STD_I32LE" ∨ s = "H5T_STD_I32BE" ∨
    s = "H5T_STD_U32LE" ∨ s = "H5T_STD_U32BE" ∨ s = "H5T_STD_I64LE" ∨ s = "H5T_STD_I64BE" ∨
    s = "H5T_STD_U64LE" ∨ s = "H5T_STD_U64BE" := by
  simp only [canonIntName, Bool.or_eq_true, beq_iff_eq] at h
  tauto

theorem canonFloatName_cases (s : String) (h : canonFloatName s = true) :
    s = "H5T_IEEE_F32LE" ∨ s = "H5T_IEEE_F32BE" ∨ s = "H5T_IEEE_F64LE" ∨ s = "H5T_IEEE_F64BE" := by
  simp only [canonFloatName, Bool.or_eq_true, beq_iff_eq] at h
  tauto

theorem createBase_array_eq (dims : List Nat) (b : TypeItem)
    (hcls : (match b with
             | .integer _ | .float _ | .strFixed _ _ _ | .strVar _ _ => true
             | _ => false) = true) :
    createBaseDataType (.array dims b)
      = createBaseDataType b >>= fun dtBase =>
          .ok (if dims = [] then dtBase else .array dtBase dims) := by
  cases b <;> first
    | rfl
    | simp at hcls

mutual

theorem rt_item : ∀ d, canonical d = true →
    ∃ dt, createDataType d = .ok dt ∧ getTypeItem dt = .ok d
  | .integer ib, h => by
      rcases canonIntName_cases ib h with
        rfl|rfl|rfl|rfl|rfl|rfl|rfl|rfl|rfl|rfl|rfl|rfl|rfl|rfl <;>
        exact ⟨_, rfl, rfl⟩
  | .float fb, h => by
      rcases canonFloatName_cases fb h with rfl|rfl|rfl|rfl <;> exact ⟨_, rfl, rfl⟩
  | .strFixed n cs pad, h => by
      simp only [canonical, Bool.and_eq_true, beq_iff_eq] at h
      obtain ⟨rfl, rfl⟩ := h
      exact ⟨_, rfl, rfl⟩
  | .strVar cs pad, h => by
      simp only [canonical, Bool.and_eq_true, Bool.or_eq_true, beq_iff_eq] at h
      obtain ⟨(rfl | rfl), rfl⟩ := h <;> exact ⟨_, rfl, rfl⟩
  | .vlen b, h => by
      simp only [canonical, Bool.and_eq_true, Bool.not_eq_true'] at h
      obtain ⟨hnc, hb⟩ := h
      obtain ⟨dt, he, hd⟩ := rt_item b hb
      rw [createDataType_eq_base b hnc] at he
      refine ⟨.vlenData dt, ?_, ?_⟩
      · have : createDataType (.vlen b) = createBaseDataType (.vlen b) := rfl
        rw [this]
        simp only [createBaseDataType, he, bindOk]
      · simp only [getTypeItem, hd, bindOk]
  | .opq n tag, h => by
      simp only [canonical, Bool.and_eq_true, Bool.not_eq_true', beq_iff_eq,
        beq_eq_false_iff_ne, ne_eq] at h
      obtain ⟨hn, rfl⟩ := h
      refine ⟨.voidN n, ?_, rfl⟩
      have : createDataType (.opq n "") = createBaseDataType (.opq n "") := rfl
      rw [this]
      simp only [createBaseDataType, if_neg hn]
  | .array dims b, h => by
      simp only [canonical, Bool.and_eq_true, Bool.not_eq_true'] at h
      obtain ⟨⟨hne, hcls⟩, hb⟩ := h
      obtain ⟨dt, he, hd⟩ := rt_item b hb
      have hdne : dims ≠ [] := by cases dims <;> simp_all
      have hadne : ¬ (dt = NpDtype.array dt dims) := npdtype_ne_array dt dims
      have hdec : getTypeItem (.array dt dims) = .ok (.array dims b) := by
        simp only [getTypeItem, if_neg hdne, if_neg hadne, hd, bindOk]
      have hcomp : b.isCompound = false := by
        cases b <;> simp_all [TypeItem.isCompound]
      rw [createDataType_eq_base _ hcomp] at he
      refine ⟨.array dt dims, ?_, hdec⟩
      rw [createDataType_eq_base _ (by simp [TypeItem.isCompound]),
        createBase_array_eq dims b hcls, he, bindOk, if_neg hdne]
  | .reference rb, h => by
      simp only [canonical, Bool.or_eq_true, beq_iff_eq] at h
      rcases h with rfl | rfl <;> exact ⟨_, rfl, rfl⟩
  | .enum base m, h => by
      cases base
      case integer ib =>
        simp only [canonical, Bool.and_eq_true] at h
        obtain ⟨⟨hket, hne⟩, hif⟩ := h
        cases m with
        | nil => simp at hne
        | cons p ps =>
          rcases canonIntName_cases ib hket with
            rfl|rfl|rfl|rfl|rfl|rfl|rfl|rfl|rfl|rfl|rfl|rfl|rfl|rfl
          -- H5T_STD_I8LE: the encoder may collapse the mapping to np.bool
          · by_cases hbm : boolMapping (p :: ps) = true
            · rw [if_pos (by simp [hbm])] at hif
              have hm : p :: ps = [(("FALSE" : String), (0 : Int)), ("TRUE", 1)] := by
                simpa using hif
              rw [hm]
              exact ⟨_, rfl, rfl⟩
            · have hbm' : boolMapping (p :: ps) = false := by
                revert hbm; cases boolMapping (p :: ps) <;> simp
              have hbc : boolCollapse (.int true 1 .le) (p :: ps) = false := by
                have heq : boolCollapse (.int true 1 .le) (p :: ps)
                    = boolMapping (p :: ps) := by
                  simp [boolCollapse, boolMapping]
                rw [heq, hbm']
              refine ⟨.enum (.int true 1 .le) (p :: ps), ?_, rfl⟩
              have h1 : createDataType (.enum (.integer "H5T_STD_I8LE") (p :: ps))
                  = (getNumpyTypename "H5T_STD_I8LE" (some "H5T_INTEGER") >>= fun dt =>
                      .ok (if boolCollapse dt (p :: ps) then .boolean
                           else .enum dt (p :: ps))) := rfl
              rw [h1, show getNumpyTypename "H5T_STD_I8LE" (some "H5T_INTEGER")
                  = Except.ok (NpDtype.int true 1 .le) from rfl, bindOk, hbc]
              simp
          all_goals exact ⟨_, rfl, rfl⟩
      all_goals simp [canonical] at h
  | .compound fs, h => by
      simp only [canonical, Bool.and_eq_true, decide_eq_true_eq] at h
      obtain ⟨⟨hlen, hfs⟩, hnd⟩ := h
      obtain ⟨nfs, he, hl, hd⟩ := rt_fields fs hfs
      refine ⟨.compound nfs, ?_, ?_⟩
      · have h0 : ¬ fs.length = 0 := by omega
        simp only [createDataType, if_neg h0, he, bindOk, if_pos hnd]
      · have h1 : nfs.length > 1 := by omega
        simp only [getTypeItem, if_pos h1, hd, bindOk]

theorem rt_fields : ∀ fs, canonicalFields fs = true →
    ∃ nfs, createDataTypeFields fs = .ok nfs ∧
      NpFields.length nfs = TypeFields.length fs ∧ getTypeItemFields nfs = .ok fs
  | .nil, _ => ⟨.nil, rfl, rfl, rfl⟩
  | .cons name t rest, h => by
      simp only [canonicalFields, Bool.and_eq_true] at h
      obtain ⟨⟨hascii, ht⟩, hrest⟩ := h
      obtain ⟨dt, he, hd⟩ := rt_item t ht
      obtain ⟨nr, her, hlr, hdr⟩ := rt_fields rest hrest
      refine ⟨.cons name dt nr, ?_, ?_, ?_⟩
      · simp only [createDataTypeFields, hascii, he, her, bindOk]
        simp
      · simp only [NpFields.length, TypeFields.length, hlr]
      · simp only [getTypeItemFields, hd, hdr, bindOk]

end
/-- **C1** (as stated, counterexample).  The round trip is not the identity
on every supported descriptor: a fixed ASCII string descriptor with
`strPad = H5T_STR_NULLTERM` encodes to `np.dtype('S5')`, which decodes
with `strPad = H5T_STR_NULLPAD`, so `getTypeItem(createDataType(d)) ≠ d`. -/
theorem c1_roundTrip_counterexample :
    roundTrip (.strFixed 5 "H5T_CSET_ASCII" "H5T_STR_NULLTERM")
      = .ok (.strFixed 5 "H5T_CSET_ASCII" "H5T_STR_NULLPAD")
    ∧ roundTrip (.strFixed 5 "H5T_CSET_ASCII" "H5T_STR_NULLTERM")
      ≠ .ok (.strFixed 5 "H5T_CSET_ASCII" "H5T_STR_NULLTERM") :=
  ⟨by decide, by decide⟩

/-- **C1** (amended).  Type-descriptor round-trip: for every *canonical*
TypeDescriptor `d` — one carrying the decoder's conventions (fixed ASCII
strings padded `NULLPAD`, variable strings `NULLTERM`, empty opaque tag,
one-byte integers little-endian, boolean-shaped 8-bit enums exactly the
h5py `{FALSE:0, TRUE:1}` convention, compounds with at least two
distinct ascii-named fields, arrays with nonempty dims over
integer/float/string bases, vlen bases non-compound) — decoding the
native type produced by encoding `d` yields `d` again:
`getTypeItem(createDataType(d)) = d`. -/
theorem c1_roundTrip_canonical (d : TypeItem) (h : canonical d = true) :
    roundTrip d = .ok d := by
  obtain ⟨dt, he, hd⟩ := rt_item d h
  simp only [roundTrip, he, Except.bind, hd]

/-- **C1** witness: the amended round-trip theorem applied to a concrete
two-field compound descriptor. -/
theorem c1_roundTrip_canonical_witness :
    roundTrip (.compound (.cons "temp" (.integer "H5T_STD_I32LE")
        (.cons "wind" (.strVar "H5T_CSET_ASCII" "H5T_STR_NULLTERM") .nil)))
      = .ok (.compound (.cons "temp" (.integer "H5T_STD_I32LE")
        (.cons "wind" (.strVar "H5T_CSET_ASCII" "H5T_STR_NULLTERM") .nil))) :=
  c1_roundTrip_canonical _ (by decide)

/-! ### Element size (claim C7) -/

/-- The byte width `getItemSize` assigns to a primitive type string
(0 when the string does not parse; `wfItem` below rules that out). -/
def primSize (b : String) : Nat :=
  match getItemSizePrim b with
  | .ok n => n
  | .error _ => 0

mutual

/-- Modelled from the spec: "`element_size` … returns `Variable` if any
nested component is variable-length or is itself a reference". -/
def hasVariableComponent : TypeItem → Bool
  | .strVar _ _ => true
  | .vlen _ => true
  | .reference _ => true
  | .enum base _ => hasVariableComponent base
  | .array _ base => hasVariableComponent base
  | .compound fs => anyFieldVariable fs
  | _ => false

def anyFieldVariable : TypeFields → Bool
  | .nil => false
  | .cons _ t rest => hasVariableComponent t || anyFieldVariable rest

end

mutual

/-- Modelled from the spec: "recursively sums compound field sizes,
multiplies array dims" — the fixed byte size of a descriptor with no
variable component. -/
def specFixedSize : TypeItem → Nat
  | .integer b => primSize b
  | .float b => primSize b
  | .strFixed n _ _ => n
  | .strVar _ _ => 0
  | .vlen _ => 0
  | .opq n _ => n
  | .array dims base => dims.foldl (fun a d => a * d) (specFixedSize base)
  | .reference _ => 0
  | .enum base _ => specFixedSize base
  | .compound fs => sumFieldSizes fs

def sumFieldSizes : TypeFields → Nat
  | .nil => 0
  | .cons _ t rest => specFixedSize t + sumFieldSizes rest

end

/-- Spec-side element size: `uint | Variable`. -/
def elementSizeSpec (t : TypeItem) : SizeRes :=
  if hasVariableComponent t then .varSize else .size (specFixedSize t)

mutual

/-- Well-formed descriptors: primitive base names parse, compounds are
nonempty.  (`getItemSize` succeeds exactly on these.) -/
def wfItem : TypeItem → Bool
  | .integer b => (getItemSizePrim b).isOk
  | .float b => (getItemSizePrim b).isOk
  | .strFixed _ _ _ => true
  | .strVar _ _ => true
  | .vlen b => wfItem b
  | .opq _ _ => true
  | .array _ b => wfItem b
  | .reference _ => true
  | .enum b _ => wfItem b
  | .compound fs => !(fs.length == 0) && wfFields fs

def wfFields : TypeFields → Bool
  | .nil => true
  | .cons _ t rest => wfItem t && wfFields rest

end

mutual

theorem size_item : ∀ t, wfItem t = true → getItemSize t = .ok (elementSizeSpec t)
  | .integer b, h => by
      simp only [wfItem, Except.isOk, Except.toBool] at h
      cases hp : getItemSizePrim b with
      | error e => rw [hp] at h; simp at h
      | ok n =>
        simp only [getItemSize, hp, bindOk, elementSizeSpec, hasVariableComponent,
          Bool.false_eq_true, if_false, specFixedSize, primSize, hp]
  | .float b, h => by
      simp only [wfItem, Except.isOk, Except.toBool] at h
      cases hp : getItemSizePrim b with
      | error e => rw [hp] at h; simp at h
      | ok n =>
        simp only [getItemSize, hp, bindOk, elementSizeSpec, hasVariableComponent,
          Bool.false_eq_true, if_false, specFixedSize, primSize, hp]
  | .strFixed n cs pad, _ => by
      simp [getItemSize, elementSizeSpec, hasVariableComponent, specFixedSize]
  | .strVar cs pad, _ => by
      simp [getItemSize, elementSizeSpec, hasVariableComponent]
  | .vlen b, _ => by
      simp [getItemSize, elementSizeSpec, hasVariableComponent]
  | .opq n tag, _ => by
      simp [getItemSize, elementSizeSpec, hasVariableComponent, specFixedSize]
  | .array dims b, h => by
      have hb : wfItem b = true := h
      have ih := size_item b hb
      simp only [getItemSize, ih, bindOk, elementSizeSpec, hasVariableComponent,
        specFixedSize]
      by_cases hv : hasVariableComponent b = true
      · simp [hv]
      · simp only [Bool.not_eq_true] at hv
        simp [hv]
  | .reference rb, _ => by
      simp [getItemSize, elementSizeSpec, hasVariableComponent]
  | .enum b m, h => by
      have hb : wfItem b = true := h
      have ih := size_item b hb
      simp only [getItemSize, ih, elementSizeSpec, hasVariableComponent, specFixedSize]
  | .compound fs, h => by
      simp only [wfItem, Bool.and_eq_true, Bool.not_eq_true', beq_eq_false_iff_ne,
        ne_eq] at h
      obtain ⟨h0, hfs⟩ := h
      have ih := size_fields fs 0 hfs
      simp only [getItemSize, if_neg h0, ih, elementSizeSpec, hasVariableComponent,
        specFixedSize, Nat.zero_add]

theorem size_fields : ∀ fs acc, wfFields fs = true →
    getItemSizeFields fs acc
      = .ok (if anyFieldVariable fs then .varSize else .size (acc + sumFieldSizes fs))
  | .nil, acc, _ => by
      simp [getItemSizeFields, anyFieldVariable, sumFieldSizes]
  | .cons name t rest, acc, h => by
      simp only [wfFields, Bool.and_eq_true] at h
      obtain ⟨ht, hrest⟩ := h
      have iht := size_item t ht
      have ihr := size_fields rest (acc + specFixedSize t) hrest
      simp only [getItemSizeFields, iht, bindOk, elementSizeSpec, anyFieldVariable,
        sumFieldSizes]
      by_cases hv : hasVariableComponent t = true
      · simp [hv]
      · simp only [Bool.not_eq_true] at hv
        simp only [hv, Bool.false_eq_true, if_false, ihr, Bool.false_or]
        have : acc + specFixedSize t + sumFieldSizes rest
            = acc + (specFixedSize t + sumFieldSizes rest) := by omega
        rw [this]

end

/-- **C7**.  Element size: for every well-formed TypeDescriptor,
`getItemSize` returns the sum of field sizes for compound types and the
base size multiplied by every array dimension for array types (computed
by `specFixedSize`), and returns the string `"H5T_VARIABLE"` exactly
when some nested component is variable-length (a vlen type or a
variable-length string) or is a reference type. -/
theorem c7_getItemSize (t : TypeItem) (h : wfItem t = true) :
    getItemSize t = .ok (elementSizeSpec t)
    ∧ (elementSizeSpec t = .varSize ↔ hasVariableComponent t = true) := by
  refine ⟨size_item t h, ?_⟩
  unfold elementSizeSpec
  by_cases hv : hasVariableComponent t = true
  · simp [hv]
  · simp only [Bool.not_eq_true] at hv
    simp [hv]

/-- **C7** witness: the element-size theorem applied to a compound of a
10-byte fixed string, an 8-element int16 array (size 10 + 16 = 26), and
to the same compound extended with a vlen field (variable). -/
theorem c7_getItemSize_witness :
    getItemSize (.compound (.cons "a" (.strFixed 10 "H5T_CSET_ASCII" "H5T_STR_NULLPAD")
        (.cons "b" (.array [2, 4] (.integer "H5T_STD_I16LE")) .nil)))
      = .ok (.size 26)
    ∧ getItemSize (.compound (.cons "a" (.strFixed 10 "H5T_CSET_ASCII" "H5T_STR_NULLPAD")
        (.cons "v" (.vlen (.integer "H5T_STD_I16LE")) .nil)))
      = .ok .varSize := by
  constructor
  · have h := c7_getItemSize (.compound (.cons "a" (.strFixed 10 "H5T_CSET_ASCII" "H5T_STR_NULLPAD")
        (.cons "b" (.array [2, 4] (.integer "H5T_STD_I16LE")) .nil))) (by decide)
    rw [h.1]
    decide
  · have h := c7_getItemSize (.compound (.cons "a" (.strFixed 10 "H5T_CSET_ASCII" "H5T_STR_NULLPAD")
        (.cons "v" (.vlen (.integer "H5T_STD_I16LE")) .nil))) (by decide)
    rw [h.1]
    decide

/-! ### The array-size accumulator of `setDatasetValuesByUuid` (claim C9) -/

/-- The accumulator loop of `setDatasetValuesByUuid` (hdf5db.py:2412-2414):
`arraySize = 1` followed by `for extent in dset.shape: arraySize *= arraySize`
— the loop multiplies the accumulator by itself, ignoring `extent`. -/
def setValuesArraySize (shape : List Nat) : Nat :=
  shape.foldl (fun arraySize _extent => arraySize * arraySize) 1

/-- **C9**.  Array-size self-multiplication: for every dataset shape the
accumulator computed by `setDatasetValuesByUuid` equals 1 (and in
particular differs from the product of the extents, e.g. for shape
`[2, 3]`). -/
theorem c9_setValuesArraySize_eq_one :
    (∀ shape : List Nat, setValuesArraySize shape = 1)
    ∧ setValuesArraySize [2, 3] ≠ ([2, 3] : List Nat).prod := by
  constructor
  · intro shape
    suffices h : ∀ l : List Nat, l.foldl (fun a (_ : Nat) => a * a) 1 = 1 from h shape
    intro l
    induction l with
    | nil => rfl
    | cons x xs ih => simpa [setValuesArraySize] using ih
  · decide
/-! ## ACL precedence (claim C2; `hdf5db.py` `getAcl` and helpers)

The ACL store is the `{acl}` group of the db: per object uuid a dataset
of rows `(userid, create, read, update, delete, readACL, updateACL)`.
`AclDb.table = none` models a file without an `{acl}` group. -/

/-- One ACL row (`getAclDtype`); the six permission fields are stored as
int8 and returned as Python ints by `convertAclNdArrayToDict`. -/
structure AclEntry where
  userid : Int
  create : Int
  read : Int
  update : Int
  delete : Int
  readACL : Int
  updateACL : Int
deriving DecidableEq, Repr

/-- The ACL-relevant state of an `Hdf5db`: the root uuid and the `{acl}`
group (per-uuid ACL datasets as association list, in row order). -/
structure AclDb where
  root_uuid : String
  table : Option (List (String × List AclEntry))
deriving DecidableEq, Repr

namespace AclDb

/-- `getAclDataset(obj_uuid)` (without `create`): the uuid's dataset in
the `{acl}` group, if both exist. -/
def getAclDataset (db : AclDb) (obj_uuid : String) : Option (List AclEntry) :=
  match db.table with
  | none => none
  | some t => t.lookup obj_uuid

/-- `getAclByObjAndUser(obj_uuid, userid)`: first row of the uuid's ACL
dataset whose `userid` field matches, as a dict. -/
def getAclByObjAndUser (db : AclDb) (obj_uuid : String) (userid : Int) : Option AclEntry :=
  match db.getAclDataset obj_uuid with
  | none => none
  | some rows => rows.find? (fun r => r.userid == userid)

/-- `getDefaultAcl()`: `userid = 0`, every permission field 1. -/
def getDefaultAcl : AclEntry :=
  { userid := 0, create := 1, read := 1, update := 1, delete := 1,
    readACL := 1, updateACL := 1 }

/-- `getAcl(obj_uuid, userid)` (hdf5db.py:419-448), translated clause by
clause: inside `if acl_grp is not None`, try `(obj_uuid, userid)`; then
`(root_uuid, userid)` unless `obj_uuid == root_uuid` or `userid == 0`;
then `(obj_uuid, 0)` unless `userid == 0`; then `(root_uuid, 0)` unless
`obj_uuid == root_uuid`; finally the default ACL. -/
def getAcl (db : AclDb) (obj_uuid : String) (userid : Int) : AclEntry :=
  match db.table with
  | some _ =>
    match db.getAclByObjAndUser obj_uuid userid with
    | some acl => acl
    | none =>
      match (if obj_uuid ≠ db.root_uuid ∧ userid ≠ 0 then
               db.getAclByObjAndUser db.root_uuid userid else none) with
      | some acl => acl
      | none =>
        match (if userid ≠ 0 then db.getAclByObjAndUser obj_uuid 0 else none) with
        | some acl => acl
        | none =>
          match (if obj_uuid ≠ db.root_uuid then
                   db.getAclByObjAndUser db.root_uuid 0 else none) with
          | some acl => acl
          | none => getDefaultAcl
  | none => getDefaultAcl

/-- Modelled from the spec: the precedence chain as a first-match walk
down the candidate list "(1) exact (uuid, user_id); (2) (root_uuid,
user_id) — skipped if uuid == root_uuid or user_id == 0; (3) (uuid, 0) —
skipped if user_id == 0; (4) (root_uuid, 0) — skipped if uuid ==
root_uuid; (5) an all-permissions-granted default entry with
user_id = 0". -/
def getAclSpec (db : AclDb) (obj_uuid : String) (userid : Int) : AclEntry :=
  (db.getAclByObjAndUser obj_uuid userid |>.orElse fun _ =>
    (if obj_uuid = db.root_uuid ∨ userid = 0 then none
     else db.getAclByObjAndUser db.root_uuid userid) |>.orElse fun _ =>
    (if userid = 0 then none
     else db.getAclByObjAndUser obj_uuid 0) |>.orElse fun _ =>
    (if obj_uuid = db.root_uuid then none
     else db.getAclByObjAndUser db.root_uuid 0)).getD getDefaultAcl

end AclDb

/-- **C2**.  ACL precedence: for every object uuid and user id, `getAcl`
returns the first entry found in the order (1) `(uuid, user_id)`;
(2) `(root_uuid, user_id)`, skipped if `uuid = root_uuid` or
`user_id = 0`; (3) `(uuid, 0)`, skipped if `user_id = 0`;
(4) `(root_uuid, 0)`, skipped if `uuid = root_uuid`; (5) a default entry
with `user_id = 0` and every permission field granted. -/
theorem c2_getAcl_precedence (db : AclDb) (obj_uuid : String) (userid : Int) :
    db.getAcl obj_uuid userid = db.getAclSpec obj_uuid userid := by
  unfold AclDb.getAcl AclDb.getAclSpec
  cases htab : db.table with
  | none =>
    simp [AclDb.getAclByObjAndUser, AclDb.getAclDataset, htab, Option.orElse]
  | some t =>
    by_cases h1 : obj_uuid = db.root_uuid
    · by_cases h2 : userid = 0
      · rw [if_neg (show ¬(obj_uuid ≠ db.root_uuid ∧ userid ≠ 0) by simp [h1]),
            if_neg (show ¬(userid ≠ 0) by simp [h2]),
            if_neg (show ¬(obj_uuid ≠ db.root_uuid) by simp [h1]),
            if_pos (Or.inl h1), if_pos h2, if_pos h1]
        cases db.getAclByObjAndUser obj_uuid userid <;>
          simp [Option.orElse, Option.getD]
      · rw [if_neg (show ¬(obj_uuid ≠ db.root_uuid ∧ userid ≠ 0) by simp [h1]),
            if_pos (show userid ≠ 0 from h2),
            if_neg (show ¬(obj_uuid ≠ db.root_uuid) by simp [h1]),
            if_pos (Or.inl h1), if_neg h2, if_pos h1]
        cases db.getAclByObjAndUser obj_uuid userid <;>
          cases db.getAclByObjAndUser obj_uuid 0 <;>
            simp [Option.orElse, Option.getD]
    · by_cases h2 : userid = 0
      · rw [if_neg (show ¬(obj_uuid ≠ db.root_uuid ∧ userid ≠ 0) by simp [h2]),
            if_neg (show ¬(userid ≠ 0) by simp [h2]),
            if_pos (show obj_uuid ≠ db.root_uuid from h1),
            if_pos (Or.inr h2), if_pos h2, if_neg h1]
        cases db.getAclByObjAndUser obj_uuid userid <;>
          cases db.getAclByObjAndUser db.root_uuid 0 <;>
            simp [Option.orElse, Option.getD]
      · rw [if_pos (show obj_uuid ≠ db.root_uuid ∧ userid ≠ 0 from ⟨h1, h2⟩),
            if_pos (show userid ≠ 0 from h2),
            if_pos (show obj_uuid ≠ db.root_uuid from h1),
            if_neg (show ¬(obj_uuid = db.root_uuid ∨ userid = 0) by simp [h1, h2]),
            if_neg h2, if_neg h1]
        cases db.getAclByObjAndUser obj_uuid userid <;>
          cases db.getAclByObjAndUser db.root_uuid userid <;>
            cases db.getAclByObjAndUser obj_uuid 0 <;>
              cases db.getAclByObjAndUser db.root_uuid 0 <;>
                simp [Option.orElse, Option.getD]
/-! ## The row-filter query compiler (claims C3/C4; `_getEvalStr`)

The scan is modelled over the query's character list; `Char.isAlpha` /
`Char.isAlphanum` are the ASCII restrictions of Python's `isalpha` /
`isalnum` (queries are ASCII).  The parenthesis counter is a `Nat` whose
"would go negative" condition is checked before decrementing. -/

/-- The single-quote character (written by code point). -/
def squote : Char := Char.ofNat 39

def dquote : Char := '"'

/-- The substitution `"rows['" + var_name + "']"`. -/
def substRows (v : String) : String :=
  "rows[" ++ squote.toString ++ v ++ squote.toString ++ "]"

/-- The body of the `while i < len(query)` loop of `_getEvalStr`
(hdf5db.py:2297-2342), one character at a time; arguments and result
mirror the loop variables `end_quote_char`, `var_name`, `var_count`,
`paren_count`, `eval_str` (`ch_next` is the lookahead `query[i+1]`). -/
def evalLoopStep (field_names : List String) (ch : Char) (ch_next : Option Char)
    (end_quote_char : Option Char) (var_name : Option String)
    (var_count paren_count : Nat) (eval_str : String) :
    Except IOErr (Option Char × Option String × Nat × Nat × String) := do
  -- `if var_name and not ch.isalnum():` — end of variable
  let s1 : Option String × Nat × String ←
    match var_name with
    | some v =>
      if ¬ ch.isAlphanum then
        if v ∈ field_names then
          .ok (none, var_count + 1, eval_str ++ substRows v)
        else .error IOErr.einval                      -- "unknown field name"
      else .ok (var_name, var_count, eval_str)
    | none => .ok (var_name, var_count, eval_str)
  let (vn, vc, acc) := s1
  match end_quote_char with
  | some q =>
      if ch = q then .ok (none, vn, vc, paren_count, acc.push ch)
      else .ok (some q, vn, vc, paren_count, acc.push ch)
  | none =>
    if ch = squote ∨ ch = dquote then
      .ok (some ch, vn, vc, paren_count, acc.push ch)
    else if ch.isAlpha then
      if ch = 'b' ∧ (ch_next = some squote ∨ ch_next = some dquote) then
        .ok (none, vn, vc, paren_count, acc.push 'b')  -- byte-literal prefix
      else match vn with
           | none => .ok (none, some (String.mk [ch]), vc, paren_count, acc)
           | some v => .ok (none, some (v.push ch), vc, paren_count, acc)
    else if ch = '(' then
      .ok (none, vn, vc, paren_count + 1, acc.push ch)
    else if ch = ')' then
      if paren_count = 0 then .error IOErr.einval     -- "Mismatched paren"
      else .ok (none, vn, vc, paren_count - 1, acc.push ch)
    else .ok (none, vn, vc, paren_count, acc.push ch)

/-- The `while` loop of `_getEvalStr` followed by the end-of-scan checks
(hdf5db.py:2343-2356). -/
def evalLoop (field_names : List String) :
    List Char → Option Char → Option String → Nat → Nat → String → Except IOErr String
  | [], end_quote_char, _var_name, var_count, paren_count, eval_str =>
      if end_quote_char.isSome then .error .einval        -- "no matching quote character"
      else if var_count = 0 then .error .einval           -- "No field value"
      else if paren_count ≠ 0 then .error .einval         -- "Mismatched paren"
      else .ok eval_str
  | ch :: rest, end_quote_char, var_name, var_count, paren_count, eval_str => do
      let (eqc, vn, vc, pc, acc) ←
        evalLoopStep field_names ch rest.head? end_quote_char var_name
          var_count paren_count eval_str
      evalLoop field_names rest eqc vn vc pc acc

/-- `_getEvalStr(query, field_names)` (hdf5db.py:2283-2356): the
blacklist pre-check (`black_list = ("import",)` against the *field
names*), then the scan. -/
def getEvalStr (query : String) (field_names : List String) : Except IOErr String :=
  if "import" ∈ field_names then .error .einval           -- "invalid field name"
  else evalLoop field_names query.data none none 0 0 ""
/-! ### Spec-side scanner (§4.5 of the spec)

`specStep`/`specScan` are modelled from the spec: "a single left-to-right
scan maintaining: current identifier buffer, active quote character (or
none), parenthesis depth, count of recognized field references", with
exactly the five rejection rules of the spec — and *no* blacklist on the
field-name whitelist. -/

structure ScanState where
  buffer : Option String
  quote : Option Char
  depth : Nat
  fieldRefs : Nat
  out : String
deriving DecidableEq, Repr

/-- Modelled from the spec: one character of the scan.  Bare identifiers
are buffered until a non-identifier character ends them, at which point
the buffered identifier must be a whitelisted field name (else
`InvalidQuery`) and is substituted with an indexed-row-access
expression; string/byte literals pass through verbatim between matching
quote delimiters; parentheses are balance-checked and going negative is
an immediate error. -/
def specStep (field_names : List String) (st : ScanState) (ch : Char)
    (lookahead : Option Char) : Except IOErr ScanState := do
  let st1 : ScanState ←
    match st.buffer with
    | some v =>
      if ¬ ch.isAlphanum then
        if v ∈ field_names then
          .ok { st with buffer := none, fieldRefs := st.fieldRefs + 1,
                        out := st.out ++ substRows v }
        else .error IOErr.einval
      else .ok st
    | none => .ok st
  match st1.quote with
  | some q =>
      if ch = q then .ok { st1 with quote := none, out := st1.out.push ch }
      else .ok { st1 with out := st1.out.push ch }
  | none =>
    if ch = squote ∨ ch = dquote then
      .ok { st1 with quote := some ch, out := st1.out.push ch }
    else if ch.isAlpha then
      if ch = 'b' ∧ (lookahead = some squote ∨ lookahead = some dquote) then
        .ok { st1 with out := st1.out.push 'b' }
      else match st1.buffer with
           | none => .ok { st1 with buffer := some (String.mk [ch]) }
           | some v => .ok { st1 with buffer := some (v.push ch) }
    else if ch = '(' then
      .ok { st1 with depth := st1.depth + 1, out := st1.out.push ch }
    else if ch = ')' then
      if st1.depth = 0 then .error IOErr.einval
      else .ok { st1 with depth := st1.depth - 1, out := st1.out.push ch }
    else .ok { st1 with out := st1.out.push ch }

def specScan (field_names : List String) : List Char → ScanState → Except IOErr ScanState
  | [], st => .ok st
  | ch :: rest, st => do
      let st1 ← specStep field_names st ch rest.head?
      specScan field_names rest st1

/-- Modelled from the spec: the whole compiler — scan, then "the scan
fails if it ends inside an open quote, if parenthesis depth is non-zero,
or if zero field references were found". -/
def evalStrSpec (query : String) (field_names : List String) : Except IOErr String := do
  let st ← specScan field_names query.data { buffer := none, quote := none,
                                             depth := 0, fieldRefs := 0, out := "" }
  if st.quote.isSome then .error .einval
  else if st.fieldRefs = 0 then .error .einval
  else if st.depth ≠ 0 then .error .einval
  else .ok st.out

set_option maxHeartbeats 1000000 in
theorem evalLoopStep_eq_specStep (f : List String) (ch : Char) (la : Option Char)
    (eqc : Option Char) (vn : Option String) (vc pc : Nat) (acc : String) :
    evalLoopStep f ch la eqc vn vc pc acc
      = (specStep f ⟨vn, eqc, pc, vc, acc⟩ ch la).map
          (fun st => (st.quote, st.buffer, st.fieldRefs, st.depth, st.out)) := by
  unfold evalLoopStep specStep
  cases vn <;> cases eqc <;> simp only [bindOk]
  case none.none =>
    split_ifs <;> rfl
  case none.some q =>
    split_ifs <;> rfl
  case some.none v =>
    by_cases ha : ¬ ch.isAlphanum
    · by_cases hv : v ∈ f
      · simp only [if_pos ha, if_pos hv, bindOk]
        split_ifs <;> rfl
      · simp only [if_pos ha, if_neg hv, bindErr]
        rfl
    · simp only [if_neg ha, bindOk]
      split_ifs <;> rfl
  case some.some v q =>
    by_cases ha : ¬ ch.isAlphanum
    · by_cases hv : v ∈ f
      · simp only [if_pos ha, if_pos hv, bindOk]
        split_ifs <;> rfl
      · simp only [if_pos ha, if_neg hv, bindErr]
        rfl
    · simp only [if_neg ha, bindOk]
      split_ifs <;> rfl
theorem evalLoop_eq_specScan (f : List String) (cs : List Char) :
    ∀ (eqc : Option Char) (vn : Option String) (vc pc : Nat) (acc : String),
    evalLoop f cs eqc vn vc pc acc
      = (specScan f cs ⟨vn, eqc, pc, vc, acc⟩).bind (fun st =>
          if st.quote.isSome then .error .einval
          else if st.fieldRefs = 0 then .error .einval
          else if st.depth ≠ 0 then .error .einval
          else .ok st.out) := by
  induction cs with
  | nil => intro eqc vn vc pc acc; rfl
  | cons ch rest ih =>
    intro eqc vn vc pc acc
    simp only [evalLoop, specScan, evalLoopStep_eq_specStep]
    cases hs : specStep f ⟨vn, eqc, pc, vc, acc⟩ ch rest.head? with
    | error e => rfl
    | ok st =>
      simp only [Except.map, bindOk]
      rw [ih]

/-- **C4** (as stated, counterexample).  The claim's "exactly when" list
omits the blacklist pre-check: the query `"date > 1"` satisfies none of
the five rejection conditions (the spec-modelled scanner compiles it),
yet `_getEvalStr` rejects it because the whitelist contains the
blacklisted name `"import"`. -/
theorem c4_getEvalStr_counterexample :
    (evalStrSpec "date > 1" ["date", "import"]).isOk = true
    ∧ getEvalStr "date > 1" ["date", "import"] = .error .einval :=
  ⟨by decide, by decide⟩

/-- **C4** (amended).  Rejection conditions: `_getEvalStr` raises
`InvalidQuery` (EINVAL) exactly when the field whitelist contains the
blacklisted name `"import"`, or when the scan fails — a buffered bare
identifier not in the whitelist, a `')'` at depth zero, ending inside an
open quote, non-zero final depth, or zero recognized field references —
and otherwise returns the substituted expression of the spec-modelled
scanner (whitelisted identifiers replaced by indexed-row-access
expressions, quoted literals passed through verbatim). -/
theorem c4_getEvalStr_rejection (query : String) (field_names : List String) :
    getEvalStr query field_names
      = if "import" ∈ field_names then .error .einval
        else evalStrSpec query field_names := by
  unfold getEvalStr evalStrSpec
  by_cases h : "import" ∈ field_names
  · simp [h]
  · simp only [if_neg h]
    rw [evalLoop_eq_specScan]
    cases hs : specScan field_names query.data
        ⟨none, none, 0, 0, ""⟩ with
    | error e => rfl
    | ok st => simp only [bindOk, Except.bind]

/-- **C3** (as stated, counterexample).  The compiler does not reject
statement separators: `"date > 1; date < 2"` contains `';'` (and each
`';'`/`'.'` outside quotes is copied verbatim into the output), yet it
compiles successfully against the whitelist `{date}`. -/
theorem c3_security_counterexample :
    (getEvalStr "date > 1; date < 2" ["date"]).isOk = true := by decide
/-- The closed output alphabet of the compiler: a compiled expression is
built, left to right, from whitelisted-field substitutions
`rows['<field>']` and single characters of the input query (covering
quoted literal content, operator and parenthesis characters, and any
other character the scan copies through verbatim). -/
inductive Emitted (f : List String) (q : List Char) : String → Prop
  | nil : Emitted f q ""
  | subst (s : String) (v : String) : Emitted f q s → v ∈ f →
      Emitted f q (s ++ substRows v)
  | chr (s : String) (c : Char) : Emitted f q s → c ∈ q →
      Emitted f q (s.push c)

theorem evalLoopStep_emitted (f : List String) (q : List Char) (ch : Char)
    (la : Option Char) (eqc : Option Char) (vn : Option String) (vc pc : Nat)
    (acc : String) (t : Option Char × Option String × Nat × Nat × String)
    (hch : ch ∈ q) (hacc : Emitted f q acc)
    (h : evalLoopStep f ch la eqc vn vc pc acc = .ok t) :
    Emitted f q t.2.2.2.2 := by
  unfold evalLoopStep at h
  have hstep : ∀ (vn1 : Option String) (vc1 : Nat) (acc1 : String),
      Emitted f q acc1 →
      (match eqc with
       | some q' =>
           if ch = q' then .ok (none, vn1, vc1, pc, acc1.push ch)
           else .ok (some q', vn1, vc1, pc, acc1.push ch)
       | none =>
         if ch = squote ∨ ch = dquote then
           .ok (some ch, vn1, vc1, pc, acc1.push ch)
         else if ch.isAlpha then
           if ch = 'b' ∧ (la = some squote ∨ la = some dquote) then
             .ok (none, vn1, vc1, pc, acc1.push 'b')
           else match vn1 with
                | none => .ok (none, some (String.mk [ch]), vc1, pc, acc1)
                | some v => .ok (none, some (v.push ch), vc1, pc, acc1)
         else if ch = '(' then
           .ok (none, vn1, vc1, pc + 1, acc1.push ch)
         else if ch = ')' then
           if pc = 0 then .error IOErr.einval
           else .ok (none, vn1, vc1, pc - 1, acc1.push ch)
         else .ok (none, vn1, vc1, pc, acc1.push ch) : Except IOErr _) = .ok t →
      Emitted f q t.2.2.2.2 := by
    intro vn1 vc1 acc1 hacc1 hm
    cases eqc with
    | some q' =>
      dsimp only [] at hm
      by_cases hq : ch = q'
      · rw [if_pos hq] at hm
        simp only [Except.ok.injEq] at hm; subst hm; exact .chr _ _ hacc1 hch
      · rw [if_neg hq] at hm
        simp only [Except.ok.injEq] at hm; subst hm; exact .chr _ _ hacc1 hch
    | none =>
      dsimp only [] at hm
      by_cases h1 : ch = squote ∨ ch = dquote
      · rw [if_pos h1] at hm
        simp only [Except.ok.injEq] at hm; subst hm
        exact .chr _ _ hacc1 hch
      · rw [if_neg h1] at hm
        by_cases h2 : ch.isAlpha
        · rw [if_pos h2] at hm
          by_cases h3 : ch = 'b' ∧ (la = some squote ∨ la = some dquote)
          · rw [if_pos h3] at hm
            simp only [Except.ok.injEq] at hm; subst hm
            simp only [← h3.1]
            exact .chr _ _ hacc1 hch
          · rw [if_neg h3] at hm
            cases vn1 <;>
              (simp only [Except.ok.injEq] at hm; subst hm; exact hacc1)
        · rw [if_neg h2] at hm
          by_cases h4 : ch = '('
          · rw [if_pos h4] at hm
            simp only [Except.ok.injEq] at hm; subst hm
            exact .chr _ _ hacc1 hch
          · rw [if_neg h4] at hm
            by_cases h5 : ch = ')'
            · rw [if_pos h5] at hm
              by_cases h6 : pc = 0
              · rw [if_pos h6] at hm; cases hm
              · rw [if_neg h6] at hm
                simp only [Except.ok.injEq] at hm; subst hm
                exact .chr _ _ hacc1 hch
            · rw [if_neg h5] at hm
              simp only [Except.ok.injEq] at hm; subst hm
              exact .chr _ _ hacc1 hch
  cases vn with
  | none =>
    dsimp only [] at h
    simp only [bindOk] at h
    exact hstep none vc acc hacc h
  | some v =>
    dsimp only [] at h
    by_cases ha : ¬ ch.isAlphanum
    · by_cases hv : v ∈ f
      · rw [if_pos ha, if_pos hv] at h
        simp only [bindOk] at h
        exact hstep none (vc + 1) (acc ++ substRows v) (.subst _ _ hacc hv) h
      · rw [if_pos ha, if_neg hv] at h
        simp only [bindErr] at h
        cases h
    · rw [if_neg ha] at h
      simp only [bindOk] at h
      exact hstep (some v) vc acc hacc h

theorem evalLoop_emitted (f : List String) (q : List Char) (cs : List Char) :
    ∀ (eqc : Option Char) (vn : Option String) (vc pc : Nat) (acc s : String),
    (∀ c ∈ cs, c ∈ q) → Emitted f q acc →
    evalLoop f cs eqc vn vc pc acc = .ok s → Emitted f q s := by
  induction cs with
  | nil =>
    intro eqc vn vc pc acc s _ hacc h
    unfold evalLoop at h
    split_ifs at h
    simp only [Except.ok.injEq] at h
    subst h
    exact hacc
  | cons ch rest ih =>
    intro eqc vn vc pc acc s hsub hacc h
    have hch : ch ∈ q := hsub ch (List.mem_cons_self ch rest)
    have hrest : ∀ c ∈ rest, c ∈ q := fun c hc => hsub c (List.mem_cons_of_mem _ hc)
    unfold evalLoop at h
    cases hstep : evalLoopStep f ch rest.head? eqc vn vc pc acc with
    | error e => rw [hstep] at h; cases h
    | ok t =>
      rw [hstep] at h
      simp only [bindOk] at h
      obtain ⟨eqc1, vn1, vc1, pc1, acc1⟩ := t
      have hacc1 : Emitted f q acc1 :=
        evalLoopStep_emitted f q ch rest.head? eqc vn vc pc acc _ hch hacc hstep
      exact ih eqc1 vn1 vc1 pc1 acc1 s hrest hacc1 h

/-- **C3** (amended).  Query-compiler output invariant: whenever
`_getEvalStr` succeeds, the whitelist did not contain the blacklisted
name `"import"` (any whitelist containing it is rejected outright), and
the output expression consists exclusively of whitelisted-field
substitutions `rows['<field>']` and verbatim single characters of the
input (quoted literals, operators, parentheses, and other pass-through
characters such as `';'` or `'.'`, which the compiler does *not*
reject): no other text is ever emitted. -/
theorem c3_security_output (query : String) (field_names : List String) (s : String)
    (h : getEvalStr query field_names = .ok s) :
    "import" ∉ field_names ∧ Emitted field_names query.data s := by
  unfold getEvalStr at h
  by_cases hb : "import" ∈ field_names
  · rw [if_pos hb] at h; cases h
  · rw [if_neg hb] at h
    exact ⟨hb, evalLoop_emitted field_names query.data query.data none none 0 0 "" s
      (fun c hc => hc) .nil h⟩

/-- **C3** witness: the output invariant applied to the concrete query
`"date > 22"` against whitelist `{date}`. -/
theorem c3_security_output_witness :
    "import" ∉ (["date"] : List String)
    ∧ Emitted ["date"] ("date > 22").data
        ("rows[" ++ squote.toString ++ "date" ++ squote.toString ++ "] > 22") :=
  c3_security_output "date > 22" ["date"] _ (by decide)
/-! ## Object directory state (claims C5, C6, C10)

The directory-relevant state of an `Hdf5db`: the visible hard-link graph
(every group's hard links, the root group included), and the private
`__db__` bookkeeping — the `{addr}` reverse map, the three collections
(`{groups}`/`{datasets}`/`{datatypes}`, each with anonymous members and a
uuid→reference attribute table for linked objects) and the
`{ctime}`/`{mtime}` timestamp tables.  Physical objects are identified by
their address (`h5py.h5o.get_info(...).addr`); `obj == tgtObj` in the
source compares the underlying objects, i.e. addresses.  Only hard links
are modelled (soft/external/user-defined links are skipped or rejected by
the functions under study). -/

abbrev Addr := Nat

structure HardLink where
  group : Addr
  name : String
  target : Addr
deriving DecidableEq, Repr

inductive Kind where
  | groups
  | datasets
  | datatypes
deriving DecidableEq, Repr

structure DbState where
  readonly : Bool
  update_timestamps : Bool
  root_uuid : String
  rootAddr : Addr
  links : List HardLink
  addrAttrs : List (Addr × String)
  groupsAnon : List (String × Addr)
  groupsRef : List (String × Addr)
  datasetsAnon : List (String × Addr)
  datasetsRef : List (String × Addr)
  datatypesAnon : List (String × Addr)
  datatypesRef : List (String × Addr)
  mtimeAttrs : List (String × Int)
  ctimeAttrs : List (String × Int)
deriving DecidableEq, Repr

/-- `attrs.create` / item assignment: replace the first binding of the
key, else append. -/
def attrUpsert {α β : Type} [BEq α] : List (α × β) → α → β → List (α × β)
  | [], k, v => [(k, v)]
  | (k0, v0) :: rest, k, v =>
      if k0 == k then (k, v) :: rest else (k0, v0) :: attrUpsert rest k v

/-- `del attrs[k]` / `del grp[k]` once the key is known present. -/
def attrRemove {α β : Type} [BEq α] (l : List (α × β)) (k : α) : List (α × β) :=
  l.filter (fun p => !(p.1 == k))

namespace DbState

def anon (db : DbState) : Kind → List (String × Addr)
  | .groups => db.groupsAnon
  | .datasets => db.datasetsAnon
  | .datatypes => db.datatypesAnon

def refs (db : DbState) : Kind → List (String × Addr)
  | .groups => db.groupsRef
  | .datasets => db.datasetsRef
  | .datatypes => db.datatypesRef

def setAnon (db : DbState) : Kind → List (String × Addr) → DbState
  | .groups, l => { db with groupsAnon := l }
  | .datasets, l => { db with datasetsAnon := l }
  | .datatypes, l => { db with datatypesAnon := l }

def setRefs (db : DbState) : Kind → List (String × Addr) → DbState
  | .groups, l => { db with groupsRef := l }
  | .datasets, l => { db with datasetsRef := l }
  | .datatypes, l => { db with datatypesRef := l }

end DbState

/-- `getTimeStampName(uuid, objType, name)` (hdf5db.py:207-225). -/
def getTimeStampName (uuid objType name : String) : Except IOErr String :=
  if objType = "object" then .ok uuid
  else if name.length = 0 then .error .eio       -- "bad setCreateTimeParameter"
  else if objType = "attribute" then .ok (uuid ++ "_attr:[" ++ name ++ "]")
  else if objType = "link" then .ok (uuid ++ "_link:[" ++ name ++ "]")
  else .error .eio                               -- "Bad objType"

namespace DbState

/-- `setModifiedTime` (hdf5db.py:284-291): a no-op when
`update_timestamps` is off, otherwise an upsert into `{mtime}`. -/
def setModifiedTime (db : DbState) (uuid objType name : String) (timestamp : Int) :
    Except IOErr DbState :=
  if ¬ db.update_timestamps then .ok db
  else do
    let ts_name ← getTimeStampName uuid objType name
    .ok { db with mtimeAttrs := attrUpsert db.mtimeAttrs ts_name timestamp }

/-- `setCreateTime` (hdf5db.py:239-248). -/
def setCreateTime (db : DbState) (uuid objType name : String) (timestamp : Int) :
    Except IOErr DbState :=
  if ¬ db.update_timestamps then .ok db
  else do
    let ts_name ← getTimeStampName uuid objType name
    .ok { db with ctimeAttrs := attrUpsert db.ctimeAttrs ts_name timestamp }

/-- `getModifiedTime` (hdf5db.py:303-318): `{mtime}` entry, falling back
to `{ctime}`, falling back (when `useRoot`) to the root's `{mtime}`
entry (a missing root entry raises `KeyError`). -/
def getModifiedTime (db : DbState) (uuid objType name : String) (useRoot : Bool) :
    Except IOErr (Option Int) := do
  let ts_name ← getTimeStampName uuid objType name
  match db.mtimeAttrs.lookup ts_name with
  | some t => .ok (some t)
  | none =>
    match db.ctimeAttrs.lookup ts_name with
    | some t => .ok (some t)
    | none =>
      if useRoot then
        match db.mtimeAttrs.lookup db.root_uuid with
        | some t => .ok (some t)
        | none => .error .eio
      else .ok none

/-- `getObjectByUuid(col_type, obj_uuid)` (hdf5db.py:737-757): the root
group by its uuid, else the collection's reference attrs, else its
anonymous members. -/
def getObjectByUuid (db : DbState) (k : Kind) (uuid : String) : Option Addr :=
  if k = .groups ∧ uuid = db.root_uuid then some db.rootAddr
  else match (db.refs k).lookup uuid with
       | some a => some a
       | none => (db.anon k).lookup uuid

/-- The lookup/error-classification part of `getDatasetItemByUuid`
(hdf5db.py:958-968); on success the function goes on to build the JSON
item for the found dataset. -/
def getDatasetItemByUuid (db : DbState) (uuid : String) : Except IOErr Addr :=
  match db.getObjectByUuid .datasets uuid with
  | some a => .ok a
  | none =>
    match db.getModifiedTime uuid "object" "" false with
    | .error e => .error e
    | .ok (some _) => .error .enoent   -- "has been previously deleted"
    | .ok none => .error .enxio        -- "was not found"

/-- `getNumLinksToObjectInGroup` (hdf5db.py:665-680). -/
def numLinksInGroup (db : DbState) (grpAddr objAddr : Addr) : Nat :=
  (db.links.filter (fun l => l.group == grpAddr && l.target == objAddr)).length

/-- `getNumLinksToObject` (hdf5db.py:685-709): anonymous groups, then
linked groups, then the root group. -/
def getNumLinksToObject (db : DbState) (objAddr : Addr) : Nat :=
  (db.groupsAnon.map (fun p => db.numLinksInGroup p.2 objAddr)).sum
    + (db.groupsRef.map (fun p => db.numLinksInGroup p.2 objAddr)).sum
    + db.numLinksInGroup db.rootAddr objAddr

/-- `getUUIDByAddress` (hdf5db.py:649-660). -/
def getUUIDByAddress (db : DbState) (addr : Addr) : Option String :=
  db.addrAttrs.lookup addr

/-- `getDBCollection` (hdf5db.py:3215-3221): first collection (groups,
datasets, datatypes) holding the uuid as member or attribute. -/
def getDBCollection (db : DbState) (uuid : String) : Option Kind :=
  if ((db.anon .groups).lookup uuid).isSome ∨ ((db.refs .groups).lookup uuid).isSome then
    some .groups
  else if ((db.anon .datasets).lookup uuid).isSome ∨ ((db.refs .datasets).lookup uuid).isSome then
    some .datasets
  else if ((db.anon .datatypes).lookup uuid).isSome ∨ ((db.refs .datatypes).lookup uuid).isSome then
    some .datatypes
  else none

/-- `unlinkObjectItem(parentGrp, tgtObj, link_name)` (hdf5db.py:3223-3264).
Every modelled link is a hard link.  When the link targets `tgt` (or no
target filter is given) and it is the last hard link to the object, the
object is demoted to anonymous (its uuid's reference attribute is deleted
— a `KeyError` if absent — and a member hard link is created under the
collection); then the link itself is deleted.  Returns the new state and
`linkDeleted`. -/
def unlinkObjectItem (db : DbState) (parentAddr : Addr) (tgt : Option Addr)
    (link_name : String) : Except IOErr (DbState × Bool) := do
  if db.readonly then .error .eio
  match db.links.find? (fun l => l.group == parentAddr && l.name == link_name) with
  | none => .error .eio     -- "did not find link_name"
  | some l =>
    let obj := l.target
    if tgt = none ∨ tgt = some obj then do
      let db1 ←
        if db.getNumLinksToObject obj = 1 then
          match db.getUUIDByAddress obj with
          | none => .error .eio     -- getDBCollection(None) then attribute access fails
          | some obj_uuid =>
            match db.getDBCollection obj_uuid with
            | none => .error .eio
            | some k =>
              if ((db.refs k).lookup obj_uuid).isSome then
                if ((db.anon k).lookup obj_uuid).isSome then
                  .error .eio       -- dbCol[obj_uuid] assignment would fail
                else
                  .ok ((db.setRefs k (attrRemove (db.refs k) obj_uuid)).setAnon k
                        ((db.anon k) ++ [(obj_uuid, obj)]))
              else .error .eio      -- del dbCol.attrs[obj_uuid] raises KeyError
        else .ok db
      let newLinks := db1.links.filter
          (fun l2 => !(l2.group == parentAddr && l2.name == link_name))
      .ok ({ db1 with links := newLinks }, true)
    else .ok (db, false)

/-- The `for name in parentGrp: unlinkObjectItem(...)` loop of
`unlinkObject` (hdf5db.py:3266-3269), over the group's link names at
entry. -/
def unlinkFold (parentAddr : Addr) (tgt : Option Addr) :
    DbState → List String → Except IOErr DbState
  | db, [] => .ok db
  | db, n :: rest => do
      let r ← db.unlinkObjectItem parentAddr tgt n
      unlinkFold parentAddr tgt r.1 rest

/-- `unlinkObject(parentGrp, tgtObj)` (hdf5db.py:3266-3269). -/
def unlinkObject (db : DbState) (parentAddr : Addr) (tgt : Option Addr) :
    Except IOErr DbState :=
  unlinkFold parentAddr tgt db
    ((db.links.filter (fun l => l.group == parentAddr)).map (·.name))

/-- The per-link unlink loop at the end of `deleteObjectByUuid`
(hdf5db.py:2930-2931). -/
def deleteLinksFold (tgt : Addr) : DbState → List (Addr × String) → Except IOErr DbState
  | db, [] => .ok db
  | db, (g, n) :: rest => do
      let r ← db.unlinkObjectItem g (some tgt) n
      deleteLinksFold tgt r.1 rest

/-- `deleteObjectByUuid(objtype, obj_uuid)` (hdf5db.py:2878-2960):
validate; resolve the target; unlink it from the root group; collect and
remove every hard link to it under the linked groups; delete the `{addr}`
reverse entry; remove the collection entry (anonymous member first, else
reference attribute, else fail); finally stamp the modification time. -/
def deleteObjectByUuid (db : DbState) (objtype uuid : String) (now : Int) :
    Except IOErr DbState := do
  if ¬ (objtype = "group" ∨ objtype = "dataset" ∨ objtype = "datatype") then .error .eio
  if db.readonly then .error .eperm
  if uuid = db.root_uuid ∧ objtype = "group" then .error .eperm
  let kc : Kind := if objtype = "dataset" then .datasets
                   else if objtype = "group" then .groups else .datatypes
  match db.getObjectByUuid kc uuid with
  | none => .error .enxio
  | some tgt => do
    let db1 ← db.unlinkObject db.rootAddr (some tgt)
    let linkList := db1.groupsRef.foldr (fun p acc =>
        ((db1.links.filter (fun l => l.group == p.2 && l.target == tgt)).map
          (fun l => (p.2, l.name))) ++ acc) []
    let db2 ← deleteLinksFold tgt db1 linkList
    if (db2.addrAttrs.lookup tgt).isNone then .error .eio  -- del raises KeyError
    let db3 := { db2 with addrAttrs := attrRemove db2.addrAttrs tgt }
    let db4 ←
      if ((db3.anon kc).lookup uuid).isSome then
        .ok (db3.setAnon kc (attrRemove (db3.anon kc) uuid))
      else if ((db3.refs kc).lookup uuid).isSome then
        .ok (db3.setRefs kc (attrRemove (db3.refs kc) uuid))
      else .error .eio      -- "did not find reference to" uuid
    db4.setModifiedTime uuid "object" "" now

/-- Per-collection storage-mode invariant: no uuid is simultaneously an
anonymous member and a reference attribute ("exactly one storage mode"). -/
def wf (db : DbState) : Bool :=
  db.groupsAnon.all (fun p => (db.groupsRef.lookup p.1).isNone)
    && db.datasetsAnon.all (fun p => (db.datasetsRef.lookup p.1).isNone)
    && db.datatypesAnon.all (fun p => (db.datatypesRef.lookup p.1).isNone)

end DbState
/-! ### Association-list lemmas -/

theorem lookup_cons {α β : Type} [BEq α] (p : α × β) (l : List (α × β)) (k : α) :
    ((p :: l).lookup k = if k == p.1 then some p.2 else l.lookup k) := by
  rcases p with ⟨a, b⟩
  simp only [List.lookup]
  by_cases h : (k == a) = true
  · simp [h]
  · rw [Bool.not_eq_true] at h
    simp [h]

theorem lookup_attrRemove_self {α β : Type} [BEq α] [LawfulBEq α]
    (l : List (α × β)) (k : α) : (attrRemove l k).lookup k = none := by
  induction l with
  | nil => rfl
  | cons p rest ih =>
    simp only [attrRemove, List.filter] at *
    by_cases hp : (p.1 == k) = true
    · simp only [hp, Bool.not_true]
      simpa using ih
    · simp only [Bool.not_eq_true] at hp
      simp only [hp, Bool.not_false]
      rw [lookup_cons]
      rw [if_neg (by simp_all [BEq.comm])]
      exact ih

theorem lookup_attrRemove_ne {α β : Type} [BEq α] [LawfulBEq α]
    (l : List (α × β)) (k u : α) (h : ¬ u = k) :
    (attrRemove l k).lookup u = l.lookup u := by
  induction l with
  | nil => rfl
  | cons p rest ih =>
    simp only [attrRemove, List.filter] at *
    by_cases hp : (p.1 == k) = true
    · simp only [hp, Bool.not_true]
      rw [ih, lookup_cons, if_neg]
      simp only [beq_iff_eq] at hp ⊢
      intro hu; exact h (hu.trans hp)
    · simp only [hp, Bool.not_false]
      rw [lookup_cons, lookup_cons, ih]

theorem lookup_attrUpsert_self {α β : Type} [BEq α] [LawfulBEq α]
    (l : List (α × β)) (k : α) (v : β) : (attrUpsert l k v).lookup k = some v := by
  induction l with
  | nil => simp [attrUpsert, List.lookup]
  | cons p rest ih =>
    rcases p with ⟨a, b⟩
    simp only [attrUpsert]
    by_cases hp : (a == k) = true
    · rw [if_pos hp, lookup_cons]
      simp
    · rw [if_neg hp, lookup_cons, if_neg (by simp_all [BEq.comm]), ih]

theorem lookup_attrUpsert_ne {α β : Type} [BEq α] [LawfulBEq α]
    (l : List (α × β)) (k u : α) (v : β) (h : ¬ u = k) :
    (attrUpsert l k v).lookup u = l.lookup u := by
  induction l with
  | nil =>
    simp only [attrUpsert]
    rw [lookup_cons, if_neg (by simpa using h)]
  | cons p rest ih =>
    rcases p with ⟨a, b⟩
    simp only [attrUpsert]
    by_cases hp : (a == k) = true
    · rw [if_pos hp, lookup_cons, lookup_cons, if_neg (by simpa using h)]
      rw [if_neg]
      simp only [beq_iff_eq] at hp ⊢
      intro hu; exact h (hu.trans hp)
    · rw [if_neg hp, lookup_cons, lookup_cons, ih]

theorem lookup_append {α β : Type} [BEq α] (l1 l2 : List (α × β)) (k : α) :
    (l1 ++ l2).lookup k
      = match l1.lookup k with
        | some v => some v
        | none => l2.lookup k := by
  induction l1 with
  | nil => rfl
  | cons p rest ih =>
    rw [List.cons_append, lookup_cons, lookup_cons]
    by_cases hp : (k == p.1) = true
    · simp [hp]
    · simp only [hp, Bool.false_eq_true, if_false]
      exact ih

theorem lookup_mem {α β : Type} [BEq α] [LawfulBEq α] {l : List (α × β)} {k : α} {v : β}
    (h : l.lookup k = some v) : (k, v) ∈ l := by
  induction l with
  | nil => cases h
  | cons p rest ih =>
    rw [lookup_cons] at h
    by_cases hp : (k == p.1) = true
    · rw [if_pos hp] at h
      simp only [Option.some.injEq] at h
      simp only [beq_iff_eq] at hp
      subst hp
      subst h
      simp
    · rw [if_neg hp] at h
      exact List.mem_cons_of_mem _ (ih h)

theorem lookup_isSome_of_mem {α β : Type} [BEq α] [LawfulBEq α] {l : List (α × β)}
    {p : α × β} (h : p ∈ l) : (l.lookup p.1).isSome := by
  induction l with
  | nil => cases h
  | cons q rest ih =>
    rw [lookup_cons]
    by_cases hq : (p.1 == q.1) = true
    · simp [hq]
    · rw [if_neg hq]
      rcases List.mem_cons.mp h with rfl | hm
      · simp at hq
      · exact ih hm

theorem lookup_none_forall {α β : Type} [BEq α] [LawfulBEq α] {l : List (α × β)} {u : α}
    (h : l.lookup u = none) : ∀ (a : α) (b : β), (a, b) ∈ l → ¬ u = a := by
  intro a b hm hu
  subst hu
  have hs := lookup_isSome_of_mem (l := l) (p := (u, b)) hm
  rw [h] at hs
  cases hs

/-- `DbState.wf` in elementwise form. -/
theorem wf_spec (db : DbState) : db.wf = true ↔
    ∀ (k : Kind) (u : String) (a : Addr),
      (db.anon k).lookup u = some a → (db.refs k).lookup u = none := by
  unfold DbState.wf
  simp only [Bool.and_eq_true, List.all_eq_true]
  constructor
  · rintro ⟨⟨hg, hd⟩, ht⟩ k u a hu
    cases k with
    | groups =>
      have := hg _ (lookup_mem hu)
      simpa [Option.isNone_iff_eq_none] using this
    | datasets =>
      have := hd _ (lookup_mem hu)
      simpa [Option.isNone_iff_eq_none] using this
    | datatypes =>
      have := ht _ (lookup_mem hu)
      simpa [Option.isNone_iff_eq_none] using this
  · intro h
    refine ⟨⟨?_, ?_⟩, ?_⟩ <;>
      (intro p hp
       have hs := lookup_isSome_of_mem hp
       rw [Option.isSome_iff_exists] at hs
       obtain ⟨a, ha⟩ := hs)
    · simpa using lookup_none_forall (h .groups p.1 a ha)
    · simpa using lookup_none_forall (h .datasets p.1 a ha)
    · simpa using lookup_none_forall (h .datatypes p.1 a ha)
/-! ### Collection accessor lemmas -/

theorem anon_setAnon_self (db : DbState) (k : Kind) (l : List (String × Addr)) :
    (db.setAnon k l).anon k = l := by cases k <;> rfl

theorem anon_setAnon_ne (db : DbState) (k k2 : Kind) (l : List (String × Addr))
    (h : ¬ k2 = k) : (db.setAnon k l).anon k2 = db.anon k2 := by
  cases k <;> cases k2 <;> first | rfl | simp at h

theorem refs_setAnon (db : DbState) (k k2 : Kind) (l : List (String × Addr)) :
    (db.setAnon k l).refs k2 = db.refs k2 := by cases k <;> cases k2 <;> rfl

theorem refs_setRefs_self (db : DbState) (k : Kind) (l : List (String × Addr)) :
    (db.setRefs k l).refs k = l := by cases k <;> rfl

theorem refs_setRefs_ne (db : DbState) (k k2 : Kind) (l : List (String × Addr))
    (h : ¬ k2 = k) : (db.setRefs k l).refs k2 = db.refs k2 := by
  cases k <;> cases k2 <;> first | rfl | simp at h

theorem anon_setRefs (db : DbState) (k k2 : Kind) (l : List (String × Addr)) :
    (db.setRefs k l).anon k2 = db.anon k2 := by cases k <;> cases k2 <;> rfl

theorem setAnon_scalars (db : DbState) (k : Kind) (l : List (String × Addr)) :
    (db.setAnon k l).readonly = db.readonly
    ∧ (db.setAnon k l).update_timestamps = db.update_timestamps
    ∧ (db.setAnon k l).root_uuid = db.root_uuid
    ∧ (db.setAnon k l).rootAddr = db.rootAddr
    ∧ (db.setAnon k l).links = db.links
    ∧ (db.setAnon k l).addrAttrs = db.addrAttrs
    ∧ (db.setAnon k l).mtimeAttrs = db.mtimeAttrs
    ∧ (db.setAnon k l).ctimeAttrs = db.ctimeAttrs := by
  cases k <;> exact ⟨rfl, rfl, rfl, rfl, rfl, rfl, rfl, rfl⟩

theorem setRefs_scalars (db : DbState) (k : Kind) (l : List (String × Addr)) :
    (db.setRefs k l).readonly = db.readonly
    ∧ (db.setRefs k l).update_timestamps = db.update_timestamps
    ∧ (db.setRefs k l).root_uuid = db.root_uuid
    ∧ (db.setRefs k l).rootAddr = db.rootAddr
    ∧ (db.setRefs k l).links = db.links
    ∧ (db.setRefs k l).addrAttrs = db.addrAttrs
    ∧ (db.setRefs k l).mtimeAttrs = db.mtimeAttrs
    ∧ (db.setRefs k l).ctimeAttrs = db.ctimeAttrs := by
  cases k <;> exact ⟨rfl, rfl, rfl, rfl, rfl, rfl, rfl, rfl⟩

theorem lookup_attrRemove_none {α β : Type} [BEq α] [LawfulBEq α]
    (l : List (α × β)) (k u : α) (h : l.lookup u = none) :
    (attrRemove l k).lookup u = none := by
  by_cases hu : u = k
  · subst hu; exact lookup_attrRemove_self l u
  · rw [lookup_attrRemove_ne l k u hu]; exact h

/-- `wf` only inspects the six collection lists. -/
theorem wf_congr (db db2 : DbState)
    (hga : db2.groupsAnon = db.groupsAnon) (hgr : db2.groupsRef = db.groupsRef)
    (hda : db2.datasetsAnon = db.datasetsAnon) (hdr : db2.datasetsRef = db.datasetsRef)
    (hta : db2.datatypesAnon = db.datatypesAnon) (htr : db2.datatypesRef = db.datatypesRef) :
    db2.wf = db.wf := by
  unfold DbState.wf
  rw [hga, hgr, hda, hdr, hta, htr]
/-- Collection facts of a demotion: moving `u0` from the reference table
of collection `k0` to its anonymous container preserves the storage-mode
invariant, keeps absent uuids absent, and keeps anonymous uuids
anonymous. -/
theorem demote_facts (db : DbState) (k0 : Kind) (u0 : String) (obj : Addr)
    (hr : ((db.refs k0).lookup u0).isSome = true)
    (hax : (db.anon k0).lookup u0 = none)
    (D : DbState)
    (hanonD : ∀ k2, D.anon k2 = if k2 = k0 then db.anon k0 ++ [(u0, obj)] else db.anon k2)
    (hrefsD : ∀ k2, D.refs k2 = if k2 = k0 then attrRemove (db.refs k0) u0 else db.refs k2) :
    (db.wf = true → D.wf = true)
    ∧ (∀ (k : Kind) (u : String), (db.anon k).lookup u = none →
        (db.refs k).lookup u = none →
        (D.anon k).lookup u = none ∧ (D.refs k).lookup u = none)
    ∧ (∀ (k : Kind) (u : String) (a : Addr), (db.anon k).lookup u = some a →
        (db.refs k).lookup u = none →
        (D.anon k).lookup u = some a ∧ (D.refs k).lookup u = none) := by
  have hne_u0 : ∀ u : String, (db.refs k0).lookup u = none → ¬ u = u0 := by
    intro u hu hc
    subst hc
    rw [hu] at hr
    cases hr
  refine ⟨?_, ?_, ?_⟩
  · intro hw
    have hw' := (wf_spec db).mp hw
    rw [wf_spec]
    intro k2 u a hua
    rw [hrefsD k2]
    rw [hanonD k2] at hua
    by_cases hk2 : k2 = k0
    · rw [if_pos hk2] at hua ⊢
      rw [lookup_append] at hua
      rcases hux : (db.anon k0).lookup u with _ | a0
      · rw [hux] at hua
        simp only [] at hua
        rw [lookup_cons] at hua
        by_cases huu : (u == u0) = true
        · rw [beq_iff_eq] at huu
          subst huu
          exact lookup_attrRemove_self _ _
        · rw [if_neg huu] at hua
          cases hua
      · rw [hux] at hua
        subst hk2
        exact lookup_attrRemove_none _ _ _ (hw' k2 u a0 hux)
    · rw [if_neg hk2] at hua ⊢
      exact hw' k2 u a hua
  · intro k2 u h1 h2
    rw [hanonD k2, hrefsD k2]
    by_cases hk2 : k2 = k0
    · subst hk2
      rw [if_pos rfl, if_pos rfl]
      constructor
      · rw [lookup_append, h1]
        simp only []
        rw [lookup_cons, if_neg]
        · rfl
        · simp only [beq_iff_eq]
          exact hne_u0 u h2
      · exact lookup_attrRemove_none _ _ _ h2
    · rw [if_neg hk2, if_neg hk2]
      exact ⟨h1, h2⟩
  · intro k2 u a h1 h2
    rw [hanonD k2, hrefsD k2]
    by_cases hk2 : k2 = k0
    · subst hk2
      rw [if_pos rfl, if_pos rfl]
      refine ⟨?_, lookup_attrRemove_none _ _ _ h2⟩
      rw [lookup_append, h1]
    · rw [if_neg hk2, if_neg hk2]
      exact ⟨h1, h2⟩

/-- What one `unlinkObjectItem` call preserves: flags, timestamps, the
address map, the storage-mode invariant, and per-collection membership
facts (a uuid absent from a collection stays absent; an anonymous uuid
stays anonymous — only uuids holding a reference attribute can move). -/
theorem unlinkItem_facts {db : DbState} {parent : Addr} {tgt : Option Addr} {n : String}
    {db' : DbState} {b : Bool}
    (h : db.unlinkObjectItem parent tgt n = .ok (db', b)) :
    db'.update_timestamps = db.update_timestamps ∧ db'.mtimeAttrs = db.mtimeAttrs
    ∧ db'.ctimeAttrs = db.ctimeAttrs ∧ db'.readonly = db.readonly
    ∧ db'.rootAddr = db.rootAddr ∧ db'.root_uuid = db.root_uuid
    ∧ db'.addrAttrs = db.addrAttrs
    ∧ (db.wf = true → db'.wf = true)
    ∧ (∀ (k : Kind) (u : String), (db.anon k).lookup u = none →
        (db.refs k).lookup u = none →
        (db'.anon k).lookup u = none ∧ (db'.refs k).lookup u = none)
    ∧ (∀ (k : Kind) (u : String) (a : Addr), (db.anon k).lookup u = some a →
        (db.refs k).lookup u = none →
        (db'.anon k).lookup u = some a ∧ (db'.refs k).lookup u = none) := by
  unfold DbState.unlinkObjectItem at h
  by_cases hro : db.readonly = true
  · rw [if_pos hro] at h
    simp only [bindErr] at h
    cases h
  rw [if_neg hro] at h
  simp only [pureOk, bindOk] at h
  rcases hf : List.find? (fun l => l.group == parent && l.name == n) db.links with _ | l
  · rw [hf] at h
    cases h
  rw [hf] at h
  dsimp only [] at h
  by_cases htgt : tgt = none ∨ tgt = some l.target
  case neg =>
    rw [if_neg htgt] at h
    simp only [Except.ok.injEq, Prod.mk.injEq] at h
    obtain ⟨rfl, rfl⟩ := h
    exact ⟨rfl, rfl, rfl, rfl, rfl, rfl, rfl, fun hw => hw,
      fun k u h1 h2 => ⟨h1, h2⟩, fun k u a h1 h2 => ⟨h1, h2⟩⟩
  rw [if_pos htgt] at h
  by_cases hnl : db.getNumLinksToObject l.target = 1
  case neg =>
    rw [if_neg hnl] at h
    simp only [bindOk, Except.ok.injEq, Prod.mk.injEq] at h
    obtain ⟨rfl, rfl⟩ := h
    exact ⟨rfl, rfl, rfl, rfl, rfl, rfl, rfl, fun hw => hw,
      fun k u h1 h2 => ⟨h1, h2⟩, fun k u a h1 h2 => ⟨h1, h2⟩⟩
  rw [if_pos hnl] at h
  rcases hu : db.getUUIDByAddress l.target with _ | u0
  · rw [hu] at h
    dsimp only [] at h
    simp only [bindErr] at h
    cases h
  rw [hu] at h
  dsimp only [] at h
  rcases hk : db.getDBCollection u0 with _ | k0
  · rw [hk] at h
    dsimp only [] at h
    simp only [bindErr] at h
    cases h
  rw [hk] at h
  dsimp only [] at h
  by_cases hr : ((db.refs k0).lookup u0).isSome = true
  case neg =>
    rw [if_neg hr] at h
    simp only [bindErr] at h
    cases h
  rw [if_pos hr] at h
  by_cases hax : ((db.anon k0).lookup u0).isSome = true
  case pos =>
    rw [if_pos hax] at h
    simp only [bindErr] at h
    cases h
  rw [if_neg hax] at h
  simp only [bindOk, Except.ok.injEq, Prod.mk.injEq] at h
  obtain ⟨rfl, rfl⟩ := h
  have hax2 : (db.anon k0).lookup u0 = none := by
    rcases hxx : (db.anon k0).lookup u0 with _ | a
    · rfl
    · rw [hxx] at hax
      simp at hax
  have hsc1 := setRefs_scalars db k0 (attrRemove (db.refs k0) u0)
  have hsc2 := setAnon_scalars (db.setRefs k0 (attrRemove (db.refs k0) u0)) k0
      (db.anon k0 ++ [(u0, l.target)])
  have hbridge : ∀ k2, ({ (db.setRefs k0 (attrRemove (db.refs k0) u0)).setAnon k0
      (db.anon k0 ++ [(u0, l.target)]) with
      links := List.filter (fun l2 => !(l2.group == parent && l2.name == n))
        ((db.setRefs k0 (attrRemove (db.refs k0) u0)).setAnon k0
          (db.anon k0 ++ [(u0, l.target)])).links } : DbState).anon k2
      = ((db.setRefs k0 (attrRemove (db.refs k0) u0)).setAnon k0
          (db.anon k0 ++ [(u0, l.target)])).anon k2 := fun k2 => by cases k2 <;> rfl
  have hbridge2 : ∀ k2, ({ (db.setRefs k0 (attrRemove (db.refs k0) u0)).setAnon k0
      (db.anon k0 ++ [(u0, l.target)]) with
      links := List.filter (fun l2 => !(l2.group == parent && l2.name == n))
        ((db.setRefs k0 (attrRemove (db.refs k0) u0)).setAnon k0
          (db.anon k0 ++ [(u0, l.target)])).links } : DbState).refs k2
      = ((db.setRefs k0 (attrRemove (db.refs k0) u0)).setAnon k0
          (db.anon k0 ++ [(u0, l.target)])).refs k2 := fun k2 => by cases k2 <;> rfl
  have hd := demote_facts db k0 u0 l.target hr hax2 _
    (fun k2 => by
      rw [hbridge k2]
      by_cases hk2 : k2 = k0
      · subst hk2; rw [if_pos rfl, anon_setAnon_self]
      · rw [if_neg hk2, anon_setAnon_ne _ _ _ _ hk2, anon_setRefs])
    (fun k2 => by
      rw [hbridge2 k2]
      by_cases hk2 : k2 = k0
      · subst hk2; rw [if_pos rfl, refs_setAnon, refs_setRefs_self]
      · rw [if_neg hk2, refs_setAnon, refs_setRefs_ne _ _ _ _ hk2])
  exact ⟨hsc2.2.1.trans hsc1.2.1,
    hsc2.2.2.2.2.2.2.1.trans hsc1.2.2.2.2.2.2.1,
    hsc2.2.2.2.2.2.2.2.trans hsc1.2.2.2.2.2.2.2,
    hsc2.1.trans hsc1.1,
    hsc2.2.2.2.1.trans hsc1.2.2.2.1,
    hsc2.2.2.1.trans hsc1.2.2.1,
    hsc2.2.2.2.2.2.1.trans hsc1.2.2.2.2.2.1,
    hd.1, hd.2.1, hd.2.2⟩
theorem unlinkFold_facts (parent : Addr) (tgt : Option Addr) :
    ∀ (names : List String) (db db' : DbState),
    DbState.unlinkFold parent tgt db names = .ok db' →
    db'.update_timestamps = db.update_timestamps ∧ db'.mtimeAttrs = db.mtimeAttrs
    ∧ db'.ctimeAttrs = db.ctimeAttrs ∧ db'.readonly = db.readonly
    ∧ db'.rootAddr = db.rootAddr ∧ db'.root_uuid = db.root_uuid
    ∧ db'.addrAttrs = db.addrAttrs
    ∧ (db.wf = true → db'.wf = true)
    ∧ (∀ (k : Kind) (u : String), (db.anon k).lookup u = none →
        (db.refs k).lookup u = none →
        (db'.anon k).lookup u = none ∧ (db'.refs k).lookup u = none)
    ∧ (∀ (k : Kind) (u : String) (a : Addr), (db.anon k).lookup u = some a →
        (db.refs k).lookup u = none →
        (db'.anon k).lookup u = some a ∧ (db'.refs k).lookup u = none) := by
  intro names
  induction names with
  | nil =>
    intro db db' h
    simp only [DbState.unlinkFold, Except.ok.injEq] at h
    subst h
    exact ⟨rfl, rfl, rfl, rfl, rfl, rfl, rfl, fun hw => hw,
      fun k u h1 h2 => ⟨h1, h2⟩, fun k u a h1 h2 => ⟨h1, h2⟩⟩
  | cons nm rest ih =>
    intro db db' h
    unfold DbState.unlinkFold at h
    cases hs : db.unlinkObjectItem parent tgt nm with
    | error e => rw [hs] at h; cases h
    | ok r =>
      obtain ⟨r1, r2⟩ := r
      rw [hs] at h
      simp only [bindOk] at h
      obtain ⟨f1, f2, f3, f4, f5, f6, f7, f8, f9, f10⟩ := unlinkItem_facts hs
      obtain ⟨g1, g2, g3, g4, g5, g6, g7, g8, g9, g10⟩ := ih r1 db' h
      exact ⟨g1.trans f1, g2.trans f2, g3.trans f3, g4.trans f4, g5.trans f5,
        g6.trans f6, g7.trans f7, fun hw => g8 (f8 hw),
        fun k u h1 h2 => g9 k u (f9 k u h1 h2).1 (f9 k u h1 h2).2,
        fun k u a h1 h2 => g10 k u a (f10 k u a h1 h2).1 (f10 k u a h1 h2).2⟩

theorem deleteLinksFold_facts (tgt0 : Addr) :
    ∀ (items : List (Addr × String)) (db db' : DbState),
    DbState.deleteLinksFold tgt0 db items = .ok db' →
    db'.update_timestamps = db.update_timestamps ∧ db'.mtimeAttrs = db.mtimeAttrs
    ∧ db'.ctimeAttrs = db.ctimeAttrs ∧ db'.readonly = db.readonly
    ∧ db'.rootAddr = db.rootAddr ∧ db'.root_uuid = db.root_uuid
    ∧ db'.addrAttrs = db.addrAttrs
    ∧ (db.wf = true → db'.wf = true)
    ∧ (∀ (k : Kind) (u : String), (db.anon k).lookup u = none →
        (db.refs k).lookup u = none →
        (db'.anon k).lookup u = none ∧ (db'.refs k).lookup u = none)
    ∧ (∀ (k : Kind) (u : String) (a : Addr), (db.anon k).lookup u = some a →
        (db.refs k).lookup u = none →
        (db'.anon k).lookup u = some a ∧ (db'.refs k).lookup u = none) := by
  intro items
  induction items with
  | nil =>
    intro db db' h
    simp only [DbState.deleteLinksFold, Except.ok.injEq] at h
    subst h
    exact ⟨rfl, rfl, rfl, rfl, rfl, rfl, rfl, fun hw => hw,
      fun k u h1 h2 => ⟨h1, h2⟩, fun k u a h1 h2 => ⟨h1, h2⟩⟩
  | cons p rest ih =>
    intro db db' h
    unfold DbState.deleteLinksFold at h
    cases hs : db.unlinkObjectItem p.1 (some tgt0) p.2 with
    | error e => rw [hs] at h; cases h
    | ok r =>
      obtain ⟨r1, r2⟩ := r
      rw [hs] at h
      simp only [bindOk] at h
      obtain ⟨f1, f2, f3, f4, f5, f6, f7, f8, f9, f10⟩ := unlinkItem_facts hs
      obtain ⟨g1, g2, g3, g4, g5, g6, g7, g8, g9, g10⟩ := ih r1 db' h
      exact ⟨g1.trans f1, g2.trans f2, g3.trans f3, g4.trans f4, g5.trans f5,
        g6.trans f6, g7.trans f7, fun hw => g8 (f8 hw),
        fun k u h1 h2 => g9 k u (f9 k u h1 h2).1 (f9 k u h1 h2).2,
        fun k u a h1 h2 => g10 k u a (f10 k u a h1 h2).1 (f10 k u a h1 h2).2⟩

/-- A uuid with no directory entry and no timestamps resolves to plain
ENXIO ("was not found") in `getDatasetItemByUuid`. -/
theorem neverExisted_enxio (d : DbState) (v : String)
    (h1 : d.datasetsAnon.lookup v = none) (h2 : d.datasetsRef.lookup v = none)
    (h3 : d.mtimeAttrs.lookup v = none) (h4 : d.ctimeAttrs.lookup v = none) :
    d.getDatasetItemByUuid v = .error .enxio := by
  unfold DbState.getDatasetItemByUuid DbState.getObjectByUuid DbState.getModifiedTime
  rw [if_neg (by rintro ⟨hc, -⟩; cases hc)]
  rw [show d.refs .datasets = d.datasetsRef from rfl,
      show d.anon .datasets = d.datasetsAnon from rfl, h1, h2]
  simp [getTimeStampName]
  rw [bindOk, h3]
  dsimp only []
  rw [h4]

/-- What a successful `deleteObjectByUuid("dataset", u)` does, stated
against the entry state: flags and `{ctime}` are untouched, the uuid was
present in the datasets collection, the `{mtime}` stamp is an upsert at
`u` (or a no-op when `update_timestamps` is off), the uuid's directory
entries are gone afterwards, and dataset uuids absent at entry stay
absent. -/
theorem delete_dataset_facts {db db' : DbState} {u : String} {now : Int}
    (h : db.deleteObjectByUuid "dataset" u now = .ok db') :
    db'.update_timestamps = db.update_timestamps
    ∧ db'.root_uuid = db.root_uuid
    ∧ db'.ctimeAttrs = db.ctimeAttrs
    ∧ (((db.datasetsRef.lookup u).isSome = true) ∨ ((db.datasetsAnon.lookup u).isSome = true))
    ∧ (db.update_timestamps = true → db'.mtimeAttrs = attrUpsert db.mtimeAttrs u now)
    ∧ (db.update_timestamps = false → db'.mtimeAttrs = db.mtimeAttrs)
    ∧ (db.wf = true → db'.datasetsAnon.lookup u = none ∧ db'.datasetsRef.lookup u = none)
    ∧ (∀ v : String, db.datasetsAnon.lookup v = none → db.datasetsRef.lookup v = none →
        db'.datasetsAnon.lookup v = none ∧ db'.datasetsRef.lookup v = none) := by
  unfold DbState.deleteObjectByUuid at h
  dsimp only [] at h
  rw [if_neg (by decide)] at h
  try simp only [pureOk, bindOk] at h
  by_cases hro : db.readonly = true
  · rw [if_pos hro] at h
    cases h
  rw [if_neg hro] at h
  try simp only [pureOk, bindOk] at h
  rw [if_neg (fun hc => absurd hc.2 (by decide))] at h
  try simp only [pureOk, bindOk] at h
  rw [if_pos trivial] at h
  rcases hobj : db.getObjectByUuid Kind.datasets u with _ | tgt
  · rw [hobj] at h
    cases h
  rw [hobj] at h
  dsimp only [] at h
  have hpresent : ((db.datasetsRef.lookup u).isSome = true)
      ∨ ((db.datasetsAnon.lookup u).isSome = true) := by
    unfold DbState.getObjectByUuid at hobj
    rw [if_neg (fun hc => by cases hc.1)] at hobj
    rcases hrr : (db.refs Kind.datasets).lookup u with _ | a
    · rw [hrr] at hobj
      dsimp only [] at hobj
      right
      have hobj2 : db.datasetsAnon.lookup u = some tgt := hobj
      rw [hobj2]
      rfl
    · left
      have hrr2 : db.datasetsRef.lookup u = some a := hrr
      rw [hrr2]
      rfl
  rcases h1 : db.unlinkObject db.rootAddr (some tgt) with e1 | db1
  · rw [h1] at h
    simp only [bindErr] at h
    cases h
  rw [h1] at h
  simp only [bindOk] at h
  rcases h2 : DbState.deleteLinksFold tgt db1 (db1.groupsRef.foldr (fun p acc =>
      ((db1.links.filter (fun l => l.group == p.2 && l.target == tgt)).map
        (fun l => (p.2, l.name))) ++ acc) []) with e2 | db2
  · rw [h2] at h
    simp only [bindErr] at h
    cases h
  rw [h2] at h
  simp only [bindOk] at h
  by_cases h3 : (db2.addrAttrs.lookup tgt).isNone = true
  · rw [if_pos h3] at h
    cases h
  rw [if_neg h3] at h
  try simp only [pureOk, bindOk] at h
  obtain ⟨db3, hdb3⟩ : ∃ d : DbState,
      ({ db2 with addrAttrs := attrRemove db2.addrAttrs tgt } : DbState) = d := ⟨_, rfl⟩
  rw [hdb3] at h
  have h3anon : ∀ k, db3.anon k = db2.anon k := fun k => by rw [← hdb3]; cases k <;> rfl
  have h3refs : ∀ k, db3.refs k = db2.refs k := fun k => by rw [← hdb3]; cases k <;> rfl
  have h3sc : db3.update_timestamps = db2.update_timestamps ∧ db3.root_uuid = db2.root_uuid
      ∧ db3.ctimeAttrs = db2.ctimeAttrs ∧ db3.mtimeAttrs = db2.mtimeAttrs
      ∧ db3.wf = db2.wf := by
    rw [← hdb3]
    exact ⟨rfl, rfl, rfl, rfl, rfl⟩
  unfold DbState.unlinkObject at h1
  have hFu := unlinkFold_facts db.rootAddr (some tgt) _ db db1 h1
  have hFd := deleteLinksFold_facts tgt _ db1 db2 h2
  obtain ⟨u1, m1, c1, r1, ra1, ru1, aa1, w1, abs1, st1⟩ := hFu
  obtain ⟨u2e, m2e, c2e, r2e, ra2e, ru2e, aa2e, w2e, abs2e, st2e⟩ := hFd
  have hfin : ∀ d4 : DbState, d4.setModifiedTime u "object" "" now = .ok db' →
      (db'.update_timestamps = d4.update_timestamps ∧ db'.root_uuid = d4.root_uuid
      ∧ db'.ctimeAttrs = d4.ctimeAttrs
      ∧ (d4.update_timestamps = true → db'.mtimeAttrs = attrUpsert d4.mtimeAttrs u now)
      ∧ (d4.update_timestamps = false → db'.mtimeAttrs = d4.mtimeAttrs)
      ∧ (∀ k, db'.anon k = d4.anon k) ∧ (∀ k, db'.refs k = d4.refs k)) := by
    intro d4 hh
    unfold DbState.setModifiedTime at hh
    by_cases hts : d4.update_timestamps = true
    · rw [if_neg (not_not_intro hts)] at hh
      rw [show getTimeStampName u "object" "" = Except.ok u from rfl] at hh
      simp only [bindOk, Except.ok.injEq] at hh
      exact ⟨by rw [← hh], by rw [← hh], by rw [← hh], fun _ => by rw [← hh],
        fun hf => absurd (hts.symm.trans hf) (by decide),
        fun k => by rw [← hh]; cases k <;> rfl, fun k => by rw [← hh]; cases k <;> rfl⟩
    · rw [if_pos hts] at hh
      simp only [Except.ok.injEq] at hh
      exact ⟨by rw [← hh], by rw [← hh], by rw [← hh], fun ht => absurd ht hts,
        fun _ => by rw [← hh], fun k => by rw [← hh], fun k => by rw [← hh]⟩
  by_cases h4 : ((db3.anon Kind.datasets).lookup u).isSome = true
  · rw [if_pos h4] at h
    try simp only [bindOk] at h
    obtain ⟨e1f, e2f, e3f, e4f, e5f, e6f, e7f⟩ := hfin _ h
    have hA := setAnon_scalars db3 Kind.datasets (attrRemove (db3.anon Kind.datasets) u)
    have up4 : (db3.setAnon Kind.datasets
        (attrRemove (db3.anon Kind.datasets) u)).update_timestamps = db.update_timestamps :=
      hA.2.1.trans (h3sc.1.trans (u2e.trans u1))
    have mt4 : (db3.setAnon Kind.datasets
        (attrRemove (db3.anon Kind.datasets) u)).mtimeAttrs = db.mtimeAttrs :=
      hA.2.2.2.2.2.2.1.trans (h3sc.2.2.2.1.trans (m2e.trans m1))
    refine ⟨e1f.trans up4, e2f.trans (hA.2.2.1.trans (h3sc.2.1.trans (ru2e.trans ru1))),
      e3f.trans (hA.2.2.2.2.2.2.2.trans (h3sc.2.2.1.trans (c2e.trans c1))), hpresent,
      ?_, ?_, ?_, ?_⟩
    · intro ht
      exact (e4f (up4.trans ht)).trans (by rw [mt4])
    · intro hf
      exact (e5f (up4.trans hf)).trans mt4
    · intro hw
      have wf3 : db3.wf = true := h3sc.2.2.2.2.trans (w2e (w1 hw))
      rcases hax : (db3.anon Kind.datasets).lookup u with _ | a
      · rw [hax] at h4
        cases h4
      have hr3 : (db3.refs Kind.datasets).lookup u = none :=
        (wf_spec db3).mp wf3 Kind.datasets u a hax
      constructor
      · show (db'.anon Kind.datasets).lookup u = none
        rw [e6f, anon_setAnon_self]
        exact lookup_attrRemove_self _ _
      · show (db'.refs Kind.datasets).lookup u = none
        rw [e7f, refs_setAnon]
        exact hr3
    · intro v hva hvr
      have d1 := abs1 Kind.datasets v hva hvr
      have d2 := abs2e Kind.datasets v d1.1 d1.2
      constructor
      · show (db'.anon Kind.datasets).lookup v = none
        rw [e6f, anon_setAnon_self]
        exact lookup_attrRemove_none _ _ _ (by rw [h3anon]; exact d2.1)
      · show (db'.refs Kind.datasets).lookup v = none
        rw [e7f, refs_setAnon, h3refs]
        exact d2.2
  · rw [if_neg h4] at h
    by_cases h5 : ((db3.refs Kind.datasets).lookup u).isSome = true
    case neg =>
      rw [if_neg h5] at h
      simp only [bindErr] at h
      cases h
    rw [if_pos h5] at h
    try simp only [bindOk] at h
    obtain ⟨e1f, e2f, e3f, e4f, e5f, e6f, e7f⟩ := hfin _ h
    have hB := setRefs_scalars db3 Kind.datasets (attrRemove (db3.refs Kind.datasets) u)
    have up4 : (db3.setRefs Kind.datasets
        (attrRemove (db3.refs Kind.datasets) u)).update_timestamps = db.update_timestamps :=
      hB.2.1.trans (h3sc.1.trans (u2e.trans u1))
    have mt4 : (db3.setRefs Kind.datasets
        (attrRemove (db3.refs Kind.datasets) u)).mtimeAttrs = db.mtimeAttrs :=
      hB.2.2.2.2.2.2.1.trans (h3sc.2.2.2.1.trans (m2e.trans m1))
    have ha3n : (db3.anon Kind.datasets).lookup u = none := by
      rcases hax : (db3.anon Kind.datasets).lookup u with _ | a
      · rfl
      · rw [hax] at h4
        simp at h4
    refine ⟨e1f.trans up4, e2f.trans (hB.2.2.1.trans (h3sc.2.1.trans (ru2e.trans ru1))),
      e3f.trans (hB.2.2.2.2.2.2.2.trans (h3sc.2.2.1.trans (c2e.trans c1))), hpresent,
      ?_, ?_, ?_, ?_⟩
    · intro ht
      exact (e4f (up4.trans ht)).trans (by rw [mt4])
    · intro hf
      exact (e5f (up4.trans hf)).trans mt4
    · intro hw
      constructor
      · show (db'.anon Kind.datasets).lookup u = none
        rw [e6f, anon_setRefs]
        exact ha3n
      · show (db'.refs Kind.datasets).lookup u = none
        rw [e7f, refs_setRefs_self]
        exact lookup_attrRemove_self _ _
    · intro v hva hvr
      have d1 := abs1 Kind.datasets v hva hvr
      have d2 := abs2e Kind.datasets v d1.1 d1.2
      constructor
      · show (db'.anon Kind.datasets).lookup v = none
        rw [e6f, anon_setRefs, h3anon]
        exact d2.1
      · show (db'.refs Kind.datasets).lookup v = none
        rw [e7f, refs_setRefs_self]
        exact lookup_attrRemove_none _ _ _ (by rw [h3refs]; exact d2.2)

/-- **C5** (deletion discrimination): after a successful
`deleteObjectByUuid("dataset", u)` on a well-formed store with
`update_timestamps` on, the uuid's directory entry is gone and its
modification timestamp is stamped, so a subsequent `getDatasetItemByUuid(u)`
fails with ENOENT ("has been previously deleted") — decided by that
timestamp — while a uuid `u2` that never existed (no directory entry, no
timestamps) fails the same lookup with plain ENXIO ("was not found"). -/
theorem c5_deletion_discrimination (db db' : DbState) (u u2 : String) (now : Int)
    (hts : db.update_timestamps = true) (hwf : db.wf = true)
    (hdel : db.deleteObjectByUuid "dataset" u now = .ok db')
    (h2a : db.datasetsAnon.lookup u2 = none) (h2r : db.datasetsRef.lookup u2 = none)
    (h2m : db.mtimeAttrs.lookup u2 = none) (h2c : db.ctimeAttrs.lookup u2 = none) :
    db'.getObjectByUuid Kind.datasets u = none
    ∧ db'.mtimeAttrs.lookup u = some now
    ∧ db'.getDatasetItemByUuid u = .error .enoent
    ∧ db'.getDatasetItemByUuid u2 = .error .enxio := by
  obtain ⟨f1, f2, f3, f4, f5, f6, f7, f8⟩ := delete_dataset_facts hdel
  obtain ⟨ha, hr⟩ := f7 hwf
  have hne : ¬ u2 = u := by
    intro hc
    subst hc
    rcases f4 with hp | hp
    · rw [h2r] at hp
      cases hp
    · rw [h2a] at hp
      cases hp
  have hmu : db'.mtimeAttrs.lookup u = some now := by
    rw [f5 hts]
    exact lookup_attrUpsert_self _ _ _
  have hga : db'.getObjectByUuid Kind.datasets u = none := by
    unfold DbState.getObjectByUuid
    rw [if_neg (fun hc => by cases hc.1)]
    have hr2 : (db'.refs Kind.datasets).lookup u = none := hr
    rw [hr2]
    exact ha
  have hitem : db'.getDatasetItemByUuid u = .error .enoent := by
    unfold DbState.getDatasetItemByUuid
    rw [hga]
    dsimp only []
    unfold DbState.getModifiedTime
    rw [show getTimeStampName u "object" "" = Except.ok u from rfl]
    simp only [bindOk]
    rw [hmu]
  have h2item : db'.getDatasetItemByUuid u2 = .error .enxio := by
    have hps := f8 u2 h2a h2r
    refine neverExisted_enxio db' u2 hps.1 hps.2 ?_ ?_
    · rw [f5 hts, lookup_attrUpsert_ne _ _ _ _ hne]
      exact h2m
    · rw [f3]
      exact h2c
  exact ⟨hga, hmu, hitem, h2item⟩

/-- A one-dataset store (dataset `d` linked from the root group) for
exercising deletion. -/
def dbC5 : DbState :=
  { readonly := false, update_timestamps := true, root_uuid := "root", rootAddr := 0,
    links := [⟨0, "d", 3⟩],
    addrAttrs := [(0, "root"), (3, "d")],
    groupsAnon := [], groupsRef := [],
    datasetsAnon := [], datasetsRef := [("d", 3)],
    datatypesAnon := [], datatypesRef := [],
    mtimeAttrs := [("root", 1)], ctimeAttrs := [("root", 1)] }

/-- `dbC5` after `deleteObjectByUuid("dataset", "d")` at time 200. -/
def dbC5del : DbState :=
  match dbC5.deleteObjectByUuid "dataset" "d" 200 with
  | .ok d => d
  | .error _ => dbC5

/-- **C5** witness: the discrimination theorem at a concrete store —
deleting dataset `d` makes its lookup fail ENOENT while the unused uuid
`x` fails ENXIO. -/
theorem c5_deletion_discrimination_witness :
    dbC5.deleteObjectByUuid "dataset" "d" 200 = .ok dbC5del
    ∧ (dbC5del.getObjectByUuid Kind.datasets "d" = none
      ∧ dbC5del.mtimeAttrs.lookup "d" = some 200
      ∧ dbC5del.getDatasetItemByUuid "d" = .error .enoent
      ∧ dbC5del.getDatasetItemByUuid "x" = .error .enxio) :=
  ⟨rfl, c5_deletion_discrimination dbC5 dbC5del "d" "x" 200 rfl rfl rfl rfl rfl rfl rfl⟩

/-- **C10** (timestamps off): with `update_timestamps = False`,
`setModifiedTime` and `setCreateTime` are no-ops, so a successful delete
stamps no modification time; a uuid deleted under this setting (with no
pre-existing timestamps) is subsequently reported as plain ENXIO ("was
not found") instead of ENOENT ("previously deleted") — the
deleted-vs-never-existed distinction silently degrades. -/
theorem c10_timestamps_off (db db' : DbState) (u : String) (now : Int)
    (hts : db.update_timestamps = false) (hwf : db.wf = true)
    (hdel : db.deleteObjectByUuid "dataset" u now = .ok db')
    (hm : db.mtimeAttrs.lookup u = none) (hc : db.ctimeAttrs.lookup u = none) :
    (∀ (uuid objType name : String) (ts : Int),
        db.setModifiedTime uuid objType name ts = .ok db)
    ∧ (∀ (uuid objType name : String) (ts : Int),
        db.setCreateTime uuid objType name ts = .ok db)
    ∧ db'.getDatasetItemByUuid u = .error .enxio := by
  obtain ⟨f1, f2, f3, f4, f5, f6, f7, f8⟩ := delete_dataset_facts hdel
  obtain ⟨ha, hr⟩ := f7 hwf
  refine ⟨?_, ?_, ?_⟩
  · intro uuid objType name ts
    unfold DbState.setModifiedTime
    rw [if_pos (by simp [hts])]
  · intro uuid objType name ts
    unfold DbState.setCreateTime
    rw [if_pos (by simp [hts])]
  · refine neverExisted_enxio db' u ha hr ?_ ?_
    · rw [f6 hts]
      exact hm
    · rw [f3]
      exact hc

/-- The store of `dbC5` with timestamp updating disabled. -/
def dbC10 : DbState :=
  { readonly := false, update_timestamps := false, root_uuid := "root", rootAddr := 0,
    links := [⟨0, "d", 3⟩],
    addrAttrs := [(0, "root"), (3, "d")],
    groupsAnon := [], groupsRef := [],
    datasetsAnon := [], datasetsRef := [("d", 3)],
    datatypesAnon := [], datatypesRef := [],
    mtimeAttrs := [("root", 1)], ctimeAttrs := [("root", 1)] }

/-- `dbC10` after `deleteObjectByUuid("dataset", "d")` at time 200. -/
def dbC10del : DbState :=
  match dbC10.deleteObjectByUuid "dataset" "d" 200 with
  | .ok d => d
  | .error _ => dbC10

/-- **C10** witness: with `update_timestamps = False` the timestamp
setters are no-ops and the deleted dataset `d` is reported ENXIO, as if
it had never existed. -/
theorem c10_timestamps_off_witness :
    dbC10.deleteObjectByUuid "dataset" "d" 200 = .ok dbC10del
    ∧ dbC10.setModifiedTime "d" "object" "" 200 = .ok dbC10
    ∧ dbC10.setCreateTime "d" "object" "" 200 = .ok dbC10
    ∧ dbC10del.getDatasetItemByUuid "d" = .error .enxio := by
  have h := c10_timestamps_off dbC10 dbC10del "d" 200 rfl rfl rfl rfl rfl
  exact ⟨rfl, h.1 "d" "object" "" 200, h.2.1 "d" "object" "" 200, h.2.2⟩

/-! ### C8: hyperslab boundary round-trip (hdf5db.py:1912-1950, 1955-2068) -/

/-- The per-dimension validation and count computation of the
`H5S_SEL_HYPERSLABS` branch of `createRegionReference`
(hdf5db.py:2046-2057): `start[i] >= 0`, `stop[i] > start[i]`, and
`count[i] = stop[i] - start[i]`. -/
def slabCounts : List Int → List Int → Except IOErr (List Int)
  | [], [] => .ok []
  | s :: ss, t :: ts =>
      if s < 0 then .error .einval
      else if t ≤ s then .error .einval
      else do
        let rest ← slabCounts ss ts
        .ok ((t - s) :: rest)
  | _, _ => .error .einval

/-- The `H5S_SEL_HYPERSLABS` branch of `createRegionReference`
(hdf5db.py:2020-2058): each slab must be a two-element `[start, stop]`
pair of rank-length coordinate lists; the space is selected with
`count = stop - start`, so each slab contributes the internal
inclusive-stop block `[start, start + count - 1]` that
`get_select_hyper_blocklist` later reports. -/
def createHyperslabBlocks (rank : Nat) :
    List (List (List Int)) → Except IOErr (List (List Int × List Int))
  | [] => .ok []
  | slab :: rest =>
    match slab with
    | [start, stop] =>
      if ¬ start.length = rank then .error .einval
      else if ¬ stop.length = rank then .error .einval
      else do
        let count ← slabCounts start stop
        let blocks ← createHyperslabBlocks rank rest
        .ok ((start, (start.zip count).map (fun p => p.1 + p.2 - 1)) :: blocks)
    | _ => .error .einval

/-- The `H5S_SEL_HYPERSLABS` branch of `getRegionReference`
(hdf5db.py:1938-1946): report the space's internal blocklist with the
second coordinate of each block bumped up by one "to match api spec". -/
def getHyperslabSelection (blocks : List (List Int × List Int)) :
    List (List (List Int)) :=
  blocks.map (fun b => [b.1, b.2.map (fun c => c + 1)])

theorem slabCounts_block : ∀ s t c : List Int, slabCounts s t = .ok c →
    ((s.zip c).map (fun p => p.1 + p.2 - 1)).map (fun x => x + 1) = t := by
  intro s
  induction s with
  | nil =>
    intro t c h
    cases t with
    | nil =>
      simp only [slabCounts, Except.ok.injEq] at h
      subst h
      rfl
    | cons t ts => cases h
  | cons s ss ih =>
    intro t c h
    cases t with
    | nil => cases h
    | cons t ts =>
      unfold slabCounts at h
      split_ifs at h
      cases hr : slabCounts ss ts with
      | error e =>
        rw [hr] at h
        cases h
      | ok rest =>
        rw [hr] at h
        simp only [bindOk, Except.ok.injEq] at h
        subst h
        simp only [List.zip_cons_cons, List.map_cons, List.cons.injEq]
        exact ⟨by ring, ih ts rest hr⟩

/-- **C8** (hyperslab boundary round-trip): whenever the
`H5S_SEL_HYPERSLABS` branch of `createRegionReference` accepts a wire
selection (each slab `[start, stop]` with exclusive stop), the blocks it
selects internally use inclusive stop `start + (stop - start) - 1`, and
`getRegionReference`'s `+1` bump maps them back to exactly the original
wire selection — no drift. -/
theorem c8_hyperslab_roundTrip (rank : Nat) :
    ∀ (sel : List (List (List Int))) (blocks : List (List Int × List Int)),
    createHyperslabBlocks rank sel = .ok blocks →
    getHyperslabSelection blocks = sel := by
  intro sel
  induction sel with
  | nil =>
    intro blocks h
    simp only [createHyperslabBlocks, Except.ok.injEq] at h
    subst h
    rfl
  | cons slab rest ih =>
    intro blocks h
    unfold createHyperslabBlocks at h
    rcases slab with _ | ⟨start, _ | ⟨stop, _ | ⟨x, xs⟩⟩⟩
    · cases h
    · cases h
    · dsimp only [] at h
      split_ifs at h
      cases hc : slabCounts start stop with
      | error e =>
        rw [hc] at h
        cases h
      | ok count =>
        rw [hc] at h
        simp only [bindOk] at h
        cases hb : createHyperslabBlocks rank rest with
        | error e =>
          rw [hb] at h
          cases h
        | ok blocks2 =>
          rw [hb] at h
          simp only [bindOk, Except.ok.injEq] at h
          subst h
          simp only [getHyperslabSelection, List.map_cons] at ih ⊢
          rw [ih blocks2 hb]
          simp [slabCounts_block start stop count hc]
    · cases h

/-- **C8** witness: wire start `(2,2)`, stop `(5,5)` selects the internal
inclusive block `[(2,2), (4,4)]` and decodes back to `[[2,2],[5,5]]`. -/
theorem c8_hyperslab_roundTrip_witness :
    createHyperslabBlocks 2 [[[(2 : Int), 2], [5, 5]]] = .ok [([2, 2], [4, 4])]
    ∧ getHyperslabSelection [([(2 : Int), 2], [4, 4])] = [[[2, 2], [5, 5]]] :=
  ⟨by decide,
   c8_hyperslab_roundTrip 2 [[[(2 : Int), 2], [5, 5]]] [([2, 2], [4, 4])] (by decide)⟩

/-! ### C6: link promotion/demotion (hdf5db.py:3271-3312, 3223-3264) -/

